import Mathlib

/-!
Shallow embedding of the evidence aggregation engine of the `sage` repository:
the credibility scorer (`backend/mcp_educational/analyzers/credibility_scorer.py`),
the relevance matcher (`codex_refac/backend/mcp_educational/analyzers/relevance_matcher.py`),
the two-tier research cache (`backend/mcp_educational/cache/research_cache.py`) and
the source aggregator (`codex_refac/backend/mcp_educational/sources/aggregator.py`).

Modelling conventions:
* Python floats are modelled as exact rationals; every arithmetic operation the
  scorers perform (+, -, *, /, min, max on small decimal literals) is exact.
* Python strings are Lean strings; `needle in hay` is substring containment and
  `str.lower()` is ASCII lowering (every table the scanners match is ASCII).
* Wall-clock instants (`datetime.now()`, SQL `CURRENT_TIMESTAMP`) are an explicit
  integer parameter `now`; TTLs are integer durations in the same unit (hours).
* `sha256` digests are modelled by their preimage signature strings: sha256 is
  deterministic, so equal signatures give equal digests, and it is treated as
  collision-free on the finitely many signatures a run produces.
* The adapter fan-out is network I/O: a `fetch` call receives the list of
  per-task outcomes (a failure, or a list of raw papers) as an explicit
  argument, exactly the list returned by `asyncio.gather` with
  `return_exceptions` set.
-/

namespace Sage

/-- ASCII lowering of one character, modelling Python `str.lower` on the ASCII
texts this engine matched against. -/
def lowerChar (c : Char) : Char :=
  if 65 ≤ c.toNat ∧ c.toNat ≤ 90 then Char.ofNat (c.toNat + 32) else c

/-- Python `s.lower()`. -/
def strLower (s : String) : String := ⟨s.data.map lowerChar⟩

/-- Python substring test on character lists. -/
def subListOf (needle : List Char) : List Char → Bool
  | [] => needle.isEmpty
  | c :: rest => needle.isPrefixOf (c :: rest) || subListOf needle rest

/-- Python `needle in hay` for strings. -/
def pyIn (needle hay : String) : Bool := subListOf needle.data hay.data

/-- Fuel-driven core of Python `hay.count(needle)` (non-overlapping occurrence
count) for a non-empty needle. -/
def countAux (needle : List Char) : Nat → List Char → Nat
  | 0, _ => 0
  | fuel + 1, hay =>
    if needle.isPrefixOf hay then 1 + countAux needle fuel (hay.drop needle.length)
    else
      match hay with
      | [] => 0
      | _ :: t => countAux needle fuel t

/-- Python `hay.count(needle)`: non-overlapping occurrences; an empty needle
counts `len(hay) + 1` exactly as in Python. -/
def pyCount (needle hay : String) : Nat :=
  if needle.data.isEmpty then hay.data.length + 1
  else countAux needle.data (hay.data.length + 1) hay.data

/-- Characters matched by the regex class `\w` (ASCII). -/
def isWordChar (c : Char) : Bool := c.isAlphanum || c = '_'

/-- Accumulating scanner behind `pyWords`. -/
def wordsAux : List Char → List Char → List String
  | [], cur => if cur.isEmpty then [] else [⟨cur.reverse⟩]
  | c :: rest, cur =>
    if isWordChar c then wordsAux rest (c :: cur)
    else if cur.isEmpty then wordsAux rest [] else ⟨cur.reverse⟩ :: wordsAux rest []

/-- Python word extraction over a string: the maximal runs of word characters,
modelling `re.findall` with the word-run pattern used by the relevance matcher. -/
def pyWords (s : String) : List String := wordsAux s.data []

/-- Python list slicing `l[:n]` for a possibly negative `n`. -/
def pySliceTo {α : Type} (l : List α) (n : Int) : List α :=
  if 0 ≤ n then l.take n.toNat else l.take (l.length - (-n).toNat)

/-- Insert `x` behind every leading element `y` with `le y x`; the building
block of the stable sort below. -/
def insertByLe {α : Type} (le : α → α → Bool) (x : α) : List α → List α
  | [] => [x]
  | y :: ys => if le y x then y :: insertByLe le x ys else x :: y :: ys

/-- Stable sort with the stability contract of Python `sorted`: a later element
is placed after every earlier element `y` with `le y x`. -/
def stableSortByLe {α : Type} (le : α → α → Bool) (l : List α) : List α :=
  l.foldl (fun acc x => insertByLe le x acc) []

/-- Python dict assignment: update an existing key in place (dict keys are
unique, and an update keeps the key's insertion position), or append a fresh
key at the end. -/
def alInsert {α : Type} (k : String) (v : α) : List (String × α) → List (String × α)
  | [] => [(k, v)]
  | p :: t => if p.1 = k then (k, v) :: t else p :: alInsert k v t

/-- Python dict deletion of a key. -/
def alErase {α : Type} (k : String) (m : List (String × α)) : List (String × α) :=
  m.filter (fun p => p.1 != k)

/-- Dataclass `ResearchQuery` of `mcp_types.py`. Dataclass defaults: intent
"general", compounds empty, min_year 2015, max_results 15. The `source_types`
field is never read by the engine and is omitted. -/
structure ResearchQuery where
  query : String
  intent : String
  compounds : List String
  min_year : Int
  max_results : Int
deriving DecidableEq

/-- Dataclass `ResearchPaper` of `mcp_types.py`. -/
structure ResearchPaper where
  id : String
  title : String
  authors : List String
  year : Int
  journal : String
  abstract : String
  doi : String
  pubmed_id : String
  url : String
  source : String
  study_type : String
  credibility_score : ℚ
  relevance_score : ℚ
  citation_count : Int
  full_citation : String
  keywords : List String
deriving DecidableEq

/-- Paper with every dataclass field at its default. -/
def basePaper : ResearchPaper :=
  { id := "", title := "", authors := [], year := 0, journal := "", abstract := ""
  , doi := "", pubmed_id := "", url := "", source := "unknown", study_type := ""
  , credibility_score := 0, relevance_score := 0, citation_count := 0
  , full_citation := "", keywords := [] }

namespace CredibilityScorer

/-- High-impact journal name fragments (`self.high_impact_journals`). -/
def high_impact_journals : List String :=
  [ "nature", "science", "cell", "lancet", "new england journal of medicine"
  , "jama", "british medical journal", "journal of clinical investigation"
  , "proceedings of the national academy of sciences", "nature medicine"
  , "neuropsychopharmacology", "journal of cannabis research"
  , "cannabis and cannabinoid research", "european journal of pain"
  , "journal of pain", "epilepsia", "seizure", "sleep medicine"
  , "clinical therapeutics", "pharmacology & therapeutics" ]

/-- Government and official source tags (`self.government_sources`). -/
def government_sources : List String :=
  [ "fda", "nih", "cdc", "who", "nida", "nci", "clinical_trials"
  , "cochrane", "pubmed", "pmc" ]

/-- Study-type hierarchy (`self.study_type_scores`): higher is more credible. -/
def study_type_scores : List (String × ℚ) :=
  [ ("meta-analysis", 10)
  , ("systematic-review", 9)
  , ("randomized-controlled-trial", 8)
  , ("phase-3-trial", 8)
  , ("clinical-trial", 7)
  , ("phase-2-trial", 7)
  , ("cohort-study", 6)
  , ("case-control-study", 5)
  , ("phase-1-trial", 5)
  , ("case-report", 4)
  , ("observational-study", 4)
  , ("review", 6)
  , ("research-article", 5)
  , ("regulatory-label", 7)
  , ("adverse-event-report", 6)
  , ("regulatory-enforcement", 6) ]

/-- Base credibility per source type (`_get_base_source_score`). -/
def source_scores : List (String × ℚ) :=
  [ ("pubmed", 4), ("clinical_trials", 3.5), ("fda", 4), ("nih", 4)
  , ("cochrane", 4.5), ("europe_pmc", 3.5), ("doaj", 3), ("core", 2.5)
  , ("arxiv", 2) ]

/-- Python `_get_base_source_score`: dictionary lookup with default 2. -/
def get_base_source_score (source : String) : ℚ :=
  (source_scores.lookup source).getD 2

/-- Python `_get_study_type_score`: hierarchy lookup with default 3, then
normalized onto the 0-3 sub-scale of this component. -/
def get_study_type_score (study_type : String) : ℚ :=
  ((study_type_scores.lookup study_type).getD 3) / 10 * 3

/-- Python `_get_journal_score`: pattern match of the venue name against the
curated lists, first hit wins. -/
def get_journal_score (journal : String) : ℚ :=
  if journal = "" then 0
  else
    let journal_lower := strLower journal
    if high_impact_journals.any (fun j => pyIn j journal_lower) then 1.5
    else if ["fda", "nih", "cdc", "who", "clinical trials", "cochrane"].any
        (fun j => pyIn j journal_lower) then 1
    else if ["cannabis", "cannabinoid", "hemp"].any (fun j => pyIn j journal_lower) then 0.8
    else if ["journal", "medicine", "medical", "clinical", "therapeutics"].any
        (fun j => pyIn j journal_lower) then 0.5
    else 0

/-- Python `_get_recency_score`: step function of the paper age relative to the
current wall-clock year. -/
def get_recency_score (current_year year : Int) : ℚ :=
  let age := current_year - year
  if age ≤ 2 then 1
  else if age ≤ 5 then 0.8
  else if age ≤ 10 then 0.5
  else if age ≤ 15 then 0.3
  else 0.1

/-- Python `_get_citation_score`: step function of the citation count. -/
def get_citation_score (citation_count : Int) : ℚ :=
  if citation_count = 0 then 0
  else if citation_count < 10 then 0.2
  else if citation_count < 50 then 0.5
  else if citation_count < 100 then 0.8
  else 1

/-- Author scan of `_get_authority_score`: the first author matching a
government indicator adds 0.3, else the first matching a university indicator
adds 0.2; either match stops the scan. -/
def author_loop : List String → ℚ
  | [] => 0
  | author :: rest =>
    let author_lower := strLower author
    if ["fda", "nih", "cdc", "who"].any (fun i => pyIn i author_lower) then 0.3
    else if ["university", "college", "institute", "medical center", "hospital"].any
        (fun i => pyIn i author_lower) then 0.2
    else author_loop rest

/-- Python `_get_authority_score`: government source bonus, author affiliation
scan, co-author bonus, capped at 1. -/
def get_authority_score (paper : ResearchPaper) : ℚ :=
  let score : ℚ := if government_sources.contains paper.source then 0.5 else 0
  let score := score + author_loop paper.authors
  let score :=
    if paper.authors.length ≥ 5 then score + 0.2
    else if paper.authors.length ≥ 3 then score + 0.1
    else score
  min score 1

/-- Python `score_paper`: weighted sum of the six sub-scores, clamped to
the interval from 0 to 10. The study-type sub-score enters the sum with
weight 0.8. -/
def score_paper (current_year : Int) (paper : ResearchPaper) : ℚ :=
  let score := get_base_source_score paper.source
    + get_study_type_score paper.study_type * 0.8
    + get_journal_score paper.journal
    + get_recency_score current_year paper.year
    + get_citation_score paper.citation_count
    + get_authority_score paper
  min (max score 0) 10

end CredibilityScorer

namespace RelevanceMatcher

/-- One row of the per-intent keyword table. -/
structure IntentEntry where
  primary : List String
  secondary : List String
  compounds : List String
  avoid : List String
deriving DecidableEq

/-- Python `self.intent_keywords`. -/
def intent_keywords : List (String × IntentEntry) :=
  [ ("sleep",
      ⟨["sleep", "insomnia", "sleep quality", "sleep disorder", "sleep latency"]
      , ["sedating", "hypnotic", "drowsiness", "bedtime", "rest"]
      , ["cbn", "cannabinol", "melatonin"]
      , ["stimulating", "energizing", "alertness"]⟩)
  , ("anxiety",
      ⟨["anxiety", "anxiolytic", "stress", "worry", "panic"]
      , ["calming", "relaxing", "soothing", "tension"]
      , ["cbd", "cannabidiol"]
      , ["stimulating", "paranoia", "psychoactive"]⟩)
  , ("pain",
      ⟨["pain", "analgesia", "analgesic", "chronic pain", "neuropathic"]
      , ["inflammation", "arthritis", "fibromyalgia", "migraine"]
      , ["cbd", "thc", "cbg"]
      , ["no effect", "ineffective"]⟩)
  , ("epilepsy",
      ⟨["epilepsy", "seizure", "anticonvulsant", "dravet", "lennox-gastaut"]
      , ["convulsion", "spasm", "neurological"]
      , ["cbd", "cannabidiol"]
      , ["pro-convulsant", "seizure-inducing"]⟩)
  , ("dosage",
      ⟨["dose", "dosage", "mg", "milligram", "administration"]
      , ["titration", "start low", "dose-response", "pharmacokinetics"]
      , ["cbd", "thc", "cbn", "cbg"]
      , []⟩)
  , ("safety",
      ⟨["safety", "adverse", "side effect", "toxicity", "interaction"]
      , ["contraindication", "warning", "precaution", "tolerance"]
      , ["cbd", "thc", "cannabinoid"]
      , []⟩) ]

/-- Python `self.compound_synonyms`. -/
def compound_synonyms : List (String × List String) :=
  [ ("cbd", ["cannabidiol", "cbd"])
  , ("thc", ["tetrahydrocannabinol", "thc", "delta-9-thc"])
  , ("cbn", ["cannabinol", "cbn"])
  , ("cbg", ["cannabigerol", "cbg"])
  , ("cbc", ["cannabichromene", "cbc"]) ]

/-- Stop words dropped by `_score_query_match`. -/
def stop_words : List String :=
  ["i", "can", "cant", "cannot", "need", "want", "help", "with", "for", "and", "or", "the", "a", "an"]

/-- Python `_score_query_match`: fraction of significant query words present in
the text, with a full bonus when the whole query phrase occurs verbatim. -/
def score_query_match (text query : String) : ℚ :=
  if query = "" then 0
  else
    let query_words := (pyWords query).filter
      (fun w => !(stop_words.contains w) && w.data.length > 2)
    if query_words.isEmpty then 0
    else
      let matched := (query_words.filter (fun w => pyIn w text)).length
      let matched := if pyIn query text then matched + query_words.length else matched
      min 1 ((matched : ℚ) / (query_words.length : ℚ))

/-- Python `_score_intent_match`: weighted fractions of the intent's primary and
secondary keyword lists found in the text. -/
def score_intent_match (text intent : String) : ℚ :=
  match intent_keywords.lookup intent with
  | none => 0
  | some keywords =>
    let score : ℚ := 0
    let primary_matches := (keywords.primary.filter (fun k => pyIn k text)).length
    let score :=
      if !keywords.primary.isEmpty then
        score + ((primary_matches : ℚ) / (keywords.primary.length : ℚ)) * 0.7
      else score
    let secondary_matches := (keywords.secondary.filter (fun k => pyIn k text)).length
    let score :=
      if !keywords.secondary.isEmpty then
        score + ((secondary_matches : ℚ) / (keywords.secondary.length : ℚ)) * 0.3
      else score
    min 1 score

/-- Python `_score_compound_match`: direct-mention, synonym and frequency
bonuses per compound, averaged over the compounds of interest. -/
def score_compound_match (text : String) (compounds : List String) : ℚ :=
  if compounds.isEmpty then 0
  else
    let total_score := compounds.foldl (fun total compound =>
      let compound_score : ℚ := if pyIn compound text then 0.8 else 0
      let compound_score :=
        match compound_synonyms.lookup compound with
        | some synonyms =>
          if synonyms.any (fun s => pyIn s text) then compound_score + 0.6 else compound_score
        | none => compound_score
      let frequency := pyCount compound text
      let compound_score :=
        if frequency > 1 then compound_score + min 0.2 ((frequency : ℚ) * 0.05)
        else compound_score
      total + min 1 compound_score) (0 : ℚ)
    min 1 (total_score / (compounds.length : ℚ))

/-- Per-intent preferred study types (`intent_study_preferences`). -/
def intent_study_preferences : List (String × List String) :=
  [ ("sleep", ["clinical-trial", "randomized-controlled-trial", "systematic-review"])
  , ("anxiety", ["clinical-trial", "randomized-controlled-trial", "meta-analysis"])
  , ("pain", ["systematic-review", "meta-analysis", "clinical-trial"])
  , ("epilepsy", ["clinical-trial", "randomized-controlled-trial", "case-report"])
  , ("dosage", ["clinical-trial", "phase-1-trial", "phase-2-trial"])
  , ("safety", ["adverse-event-report", "clinical-trial", "systematic-review"]) ]

/-- Python `_score_study_type_relevance`. -/
def score_study_type_relevance (study_type intent : String) : ℚ :=
  match intent_study_preferences.lookup intent with
  | some preferred_types =>
    if preferred_types.contains study_type then 1
    else if ["clinical-trial", "systematic-review", "meta-analysis"].contains study_type then 0.7
    else 0.3
  | none =>
    if ["meta-analysis", "systematic-review", "randomized-controlled-trial"].contains study_type then 0.8
    else 0.4

/-- Python `_score_title_relevance`. -/
def score_title_relevance (title query intent : String) : ℚ :=
  let score : ℚ := if pyIn query title then 0.8 else 0
  let score :=
    match intent_keywords.lookup intent with
    | some keywords => if keywords.primary.any (fun k => pyIn k title) then score + 0.6 else score
    | none => score
  let score :=
    if ["systematic review", "meta-analysis", "clinical trial", "effects of"].any
        (fun i => pyIn i title) then score + 0.4
    else score
  min 1 score

/-- Python `_score_negative_indicators`: bounded penalty for negative findings,
intent-specific avoid terms and animal-study signals. -/
def score_negative_indicators (text intent : String) : ℚ :=
  let negative_score : ℚ :=
    ((["no effect", "ineffective", "failed", "negative results"].filter
      (fun i => pyIn i text)).length : ℚ) * 0.2
  let negative_score :=
    match intent_keywords.lookup intent with
    | some keywords =>
      negative_score + ((keywords.avoid.filter (fun t => pyIn t text)).length : ℚ) * 0.3
    | none => negative_score
  let animal_mentions :=
    (["animal", "rat", "mouse", "mice", "rodent", "in vitro"].filter
      (fun i => pyIn i text)).length
  let negative_score :=
    if animal_mentions > 0 then negative_score + min 0.3 ((animal_mentions : ℚ) * 0.1)
    else negative_score
  min 0.5 negative_score

/-- Python `score_relevance`: weighted sum of the five sub-scores minus the
negative-signal penalty, clamped to the interval from 0 to 1. -/
def score_relevance (paper : ResearchPaper) (query : ResearchQuery) : ℚ :=
  let title_text := strLower paper.title
  let abstract_text := strLower paper.abstract
  let combined_text := title_text ++ " " ++ abstract_text
  let query_text := strLower query.query
  let intent := query.intent
  let compounds := query.compounds.map strLower
  let score := score_query_match combined_text query_text * 0.3
  let score := score + score_intent_match combined_text intent * 0.25
  let score := score + score_compound_match combined_text compounds * 0.2
  let score := score + score_study_type_relevance paper.study_type intent * 0.15
  let score := score + score_title_relevance title_text query_text intent * 0.1
  let score := score - score_negative_indicators combined_text intent
  max 0 (min 1 score)

end RelevanceMatcher

namespace ResearchCache

/-- Python repr of one string in a sorted-compounds list (single-quoted). -/
def pyStrRepr (s : String) : String :=
  let q : String := ⟨[Char.ofNat 39]⟩
  q ++ s ++ q

/-- Python repr of `sorted(query.compounds)`, as interpolated by the f-string
of `_generate_query_hash`. -/
def pySortedListRepr (compounds : List String) : String :=
  "[" ++ String.intercalate ", "
    ((stableSortByLe (fun a b => decide (a ≤ b)) compounds).map pyStrRepr) ++ "]"

/-- Normalized query signature of `_generate_query_hash`; the sha256 digest of
this string is modelled by the string itself (sha256 is deterministic and
treated as collision-free). -/
def generate_query_hash (query : ResearchQuery) : String :=
  query.query ++ "|" ++ query.intent ++ "|" ++ pySortedListRepr query.compounds
    ++ "|" ++ toString query.max_results

/-- Content signature of `_generate_paper_hash`, modelled like the query hash. -/
def generate_paper_hash (paper : ResearchPaper) : String :=
  paper.title ++ "|" ++ paper.journal ++ "|" ++ toString paper.year ++ "|" ++ paper.doi

/-- One entry of the in-memory tier (`self.memory_cache[query_hash]`); the
stored per-paper dicts round-trip through the dataclass constructor, so they
are modelled as the papers themselves. -/
structure MemEntry where
  papers : List ResearchPaper
  expires_at : Int
  cached_at : Int
deriving DecidableEq

/-- One row of the `research_papers` table (columns the engine reads back). -/
structure PaperRow where
  query_hash : String
  paper_data : ResearchPaper
  expires_at : Int
deriving DecidableEq

/-- One row of the `query_results` table (columns the engine reads back). -/
structure QueryRow where
  result_paper_ids : List String
  expires_at : Int
  access_count : Nat
  last_accessed : Int
deriving DecidableEq

/-- State of a `ResearchCache` instance: the two in-memory dicts and the two
SQLite tables. Hit/miss counters are observability only and are omitted. -/
structure CacheState where
  max_memory_entries : Nat
  memory_cache : List (String × MemEntry)
  access_times : List (String × Int)
  disk_papers : List (String × PaperRow)
  disk_queries : List (String × QueryRow)
deriving DecidableEq

/-- Freshly constructed cache with the given memory capacity (the constructor
default is 1000). -/
def emptyCache (max_memory_entries : Nat) : CacheState :=
  ⟨max_memory_entries, [], [], [], []⟩

/-- Python `_evict_oldest_entries`: when the tracked entry count exceeds a
tenth of the capacity, drop the least-recently-accessed tenth of the entries
from both in-memory dicts in one pass. `int(len * 0.1)` is floor division by
ten. -/
def evict_oldest_entries (st : CacheState) : CacheState :=
  if 10 * st.access_times.length > st.max_memory_entries then
    let sorted_entries := stableSortByLe (fun a b => decide (a.2 ≤ b.2)) st.access_times
    let entries_to_remove := st.access_times.length / 10
    let victims := (sorted_entries.take entries_to_remove).map (fun p => p.1)
    { st with
      memory_cache := st.memory_cache.filter (fun p => !(victims.contains p.1))
      access_times := st.access_times.filter (fun p => !(victims.contains p.1)) }
  else st

/-- Python `_cache_in_memory`: evict when the memory tier is at capacity, then
store the entry and stamp its access time. -/
def cache_in_memory (now : Int) (query_hash : String) (papers : List ResearchPaper)
    (expires_at : Int) (st : CacheState) : CacheState :=
  let st := if st.memory_cache.length ≥ st.max_memory_entries then evict_oldest_entries st else st
  { st with
    memory_cache := alInsert query_hash ⟨papers, expires_at, now⟩ st.memory_cache
    access_times := alInsert query_hash now st.access_times }

/-- Disk half of `get_query_results`: select the unexpired query row, bump its
access statistics, hydrate the unexpired member papers, and mirror a non-empty
result back into memory. -/
def disk_lookup (now : Int) (query_hash : String) (st : CacheState) :
    Option (List ResearchPaper) × CacheState :=
  match st.disk_queries.lookup query_hash with
  | some row =>
    if row.expires_at > now then
      let st := { st with
        disk_queries := alInsert query_hash
          { row with access_count := row.access_count + 1, last_accessed := now }
          st.disk_queries }
      let papers := row.result_paper_ids.filterMap (fun paper_id =>
        match st.disk_papers.lookup paper_id with
        | some paper_row =>
          if paper_row.expires_at > now then some paper_row.paper_data else none
        | none => none)
      if papers.isEmpty then (none, st)
      else (some papers, cache_in_memory now query_hash papers row.expires_at st)
    else (none, st)
  | none => (none, st)

/-- Python `get_query_results`: memory tier first (an expired memory entry is
deleted and the read falls through to disk), then the persistent tier. -/
def get_query_results (now : Int) (query : ResearchQuery) (st : CacheState) :
    Option (List ResearchPaper) × CacheState :=
  let query_hash := generate_query_hash query
  match st.memory_cache.lookup query_hash with
  | some entry =>
    let st := { st with access_times := alInsert query_hash now st.access_times }
    if now < entry.expires_at then (some entry.papers, st)
    else
      let st := { st with
        memory_cache := alErase query_hash st.memory_cache
        access_times := alErase query_hash st.access_times }
      disk_lookup now query_hash st
  | none => disk_lookup now query_hash st

/-- Python `cache_query_results`: refuse an empty result list; otherwise write
every paper row keyed by its content hash, write the query row keyed by the
query hash (both with expiry `now + ttl_hours`), and mirror into memory. -/
def cache_query_results (now ttl_hours : Int) (query : ResearchQuery)
    (papers : List ResearchPaper) (st : CacheState) : Bool × CacheState :=
  if papers.isEmpty then (false, st)
  else
    let query_hash := generate_query_hash query
    let expires_at := now + ttl_hours
    let paper_ids := papers.map generate_paper_hash
    let st := { st with
      disk_papers := papers.foldl (fun acc paper =>
        alInsert (generate_paper_hash paper) ⟨query_hash, paper, expires_at⟩ acc) st.disk_papers }
    let st := { st with
      disk_queries := alInsert query_hash ⟨paper_ids, expires_at, 0, now⟩ st.disk_queries }
    (true, cache_in_memory now query_hash papers expires_at st)

/-- Python `cleanup_expired`: count the expired rows of both tables, delete
them, and return the total count. -/
def cleanup_expired (now : Int) (st : CacheState) : Nat × CacheState :=
  let expired_papers := (st.disk_papers.filter (fun p => p.2.expires_at ≤ now)).length
  let expired_queries := (st.disk_queries.filter (fun p => p.2.expires_at ≤ now)).length
  (expired_papers + expired_queries,
   { st with
     disk_papers := st.disk_papers.filter (fun p => decide (now < p.2.expires_at))
     disk_queries := st.disk_queries.filter (fun p => decide (now < p.2.expires_at)) })

end ResearchCache

namespace Aggregator

open ResearchCache

/-- Result dict of `fetch_research_evidence` (the derived `summary` statistics
and the wall-clock `timestamp` string are omitted; `papers` holds the records
whose deterministic dict projection `_paper_to_dict` the caller receives). -/
structure FetchResult where
  query : String
  intent : String
  total_found : Nat
  returned : Nat
  papers : List ResearchPaper
  cached : Bool
deriving DecidableEq

/-- Outcome of one fan-out task as surfaced by `asyncio.gather` with
`return_exceptions` set: a list of papers, or an exception message. -/
abbrev TaskResult : Type := Except String (List ResearchPaper)

/-- Test distinguishing a task that returned a list from a failed one. -/
def task_ok : TaskResult → Bool
  | Except.ok _ => true
  | Except.error _ => false

/-- Combination loop of `fetch_research_evidence`: list results are
concatenated in task order, exceptions are logged and skipped. -/
def combine_results (results : List TaskResult) : List ResearchPaper :=
  results.foldl (fun acc r =>
    match r with
    | Except.ok papers => acc ++ papers
    | Except.error _ => acc) []

/-- Python `_format_citation`. -/
def format_citation (paper : ResearchPaper) : String :=
  let authors_str := String.intercalate ", " (paper.authors.take 3)
  let authors_str := if paper.authors.length > 3 then authors_str ++ ", et al." else authors_str
  let citation := authors_str ++ " (" ++ toString paper.year ++ "). " ++ paper.title
    ++ ". " ++ paper.journal ++ "."
  if paper.doi ≠ "" then citation ++ " https://doi.org/" ++ paper.doi
  else if paper.url ≠ "" then citation ++ " " ++ paper.url
  else citation

/-- Python `_score_papers`: stamp each paper with its credibility score, its
relevance score and its formatted citation. -/
def score_papers (current_year : Int) (query : ResearchQuery)
    (papers : List ResearchPaper) : List ResearchPaper :=
  papers.map (fun paper =>
    let paper := { paper with
      credibility_score := CredibilityScorer.score_paper current_year paper }
    let paper := { paper with
      relevance_score := RelevanceMatcher.score_relevance paper query }
    { paper with full_citation := format_citation paper })

/-- Sort key of the final ranking:
`x.relevance_score * 0.6 + x.credibility_score / 10 * 0.4`. -/
def blend_key (paper : ResearchPaper) : ℚ :=
  paper.relevance_score * 0.6 + paper.credibility_score / 10 * 0.4

/-- Python `sorted(..., key=blend_key, reverse=True)`: stable descending sort
by the blended score. -/
def rank_desc (papers : List ResearchPaper) : List ResearchPaper :=
  stableSortByLe (fun a b => decide (blend_key b ≤ blend_key a)) papers

/-- Default TTL of a cached query result (`ttl_hours = 24`). -/
def ttlHours : Int := 24

/-- Hit branch of `fetch_research_evidence`: the cached papers are returned as
they are, with `total_found` and `returned` both the cached count. -/
def hit_result (query : ResearchQuery) (papers : List ResearchPaper) : FetchResult :=
  { query := query.query, intent := query.intent
  , total_found := papers.length, returned := papers.length
  , papers := papers, cached := true }

/-- Miss branch of `fetch_research_evidence`: combine the task outcomes, score
every gathered paper, rank by the blended key, truncate to `max_results`,
cache a non-empty final list, and report `total_found` as the pre-truncation
count. -/
def miss_result (now current_year : Int) (query : ResearchQuery)
    (task_results : List TaskResult) (st : CacheState) : FetchResult × CacheState :=
  let all_papers := combine_results task_results
  let scored_papers := score_papers current_year query all_papers
  let final_papers := pySliceTo (rank_desc scored_papers) query.max_results
  let st := if final_papers.isEmpty then st
    else (cache_query_results now ttlHours query final_papers st).2
  ({ query := query.query, intent := query.intent
   , total_found := all_papers.length, returned := final_papers.length
   , papers := final_papers, cached := false }, st)

/-- Python `fetch_research_evidence`: consult the cache (a non-empty cached
list short-circuits every adapter call and all scoring), otherwise aggregate
afresh. The fan-out task outcomes arrive as `task_results`. -/
def fetch_research_evidence (now current_year : Int) (query : ResearchQuery)
    (task_results : List TaskResult) (st : CacheState) : FetchResult × CacheState :=
  match get_query_results now query st with
  | (some (p :: ps), st1) => (hit_result query (p :: ps), st1)
  | (some [], st1) => miss_result now current_year query task_results st1
  | (none, st1) => miss_result now current_year query task_results st1

end Aggregator

/-! Lemmas about the stable sort. -/

/-- Membership in an insertion. -/
theorem mem_insertByLe {α : Type} (le : α → α → Bool) (x : α) (l : List α) (a : α) :
    a ∈ insertByLe le x l ↔ a = x ∨ a ∈ l := by
  induction l with
  | nil => simp [insertByLe]
  | cons y ys ih =>
    by_cases h : le y x = true
    · rw [insertByLe, if_pos h]
      simp only [List.mem_cons, ih]
      tauto
    · rw [insertByLe, if_neg h]
      simp only [List.mem_cons]
      try tauto

/-- Inserting into a sorted list keeps it sorted, for a total transitive
boolean relation. -/
theorem pairwise_insertByLe {α : Type} {le : α → α → Bool}
    (htrans : ∀ a b c, le a b = true → le b c = true → le a c = true)
    (htot : ∀ a b, le a b = true ∨ le b a = true) (x : α) :
    ∀ l : List α, l.Pairwise (fun a b => le a b = true) →
      (insertByLe le x l).Pairwise (fun a b => le a b = true) := by
  intro l hl
  induction l with
  | nil => simp [insertByLe]
  | cons y ys ih =>
    rcases List.pairwise_cons.mp hl with ⟨hy, hys⟩
    by_cases h : le y x = true
    · rw [insertByLe, if_pos h]
      refine List.pairwise_cons.mpr ⟨?_, ih hys⟩
      intro z hz
      rcases (mem_insertByLe le x ys z).mp hz with rfl | hz
      · exact h
      · exact hy z hz
    · have hxy : le x y = true := (htot x y).resolve_right (by simpa using h)
      rw [insertByLe, if_neg h]
      refine List.pairwise_cons.mpr ⟨?_, hl⟩
      intro z hz
      rcases List.mem_cons.mp hz with rfl | hz
      · exact hxy
      · exact htrans x y z hxy (hy z hz)

/-- The stable sort produces a sorted list. -/
theorem pairwise_stableSortByLe {α : Type} {le : α → α → Bool}
    (htrans : ∀ a b c, le a b = true → le b c = true → le a c = true)
    (htot : ∀ a b, le a b = true ∨ le b a = true) (l : List α) :
    (stableSortByLe le l).Pairwise (fun a b => le a b = true) := by
  have key : ∀ (l acc : List α), acc.Pairwise (fun a b => le a b = true) →
      (l.foldl (fun acc x => insertByLe le x acc) acc).Pairwise (fun a b => le a b = true) := by
    intro l
    induction l with
    | nil => intro acc h; simpa using h
    | cons x xs ih =>
      intro acc h
      exact ih _ (pairwise_insertByLe htrans htot x acc h)
  exact key l [] (by simp)

/-- An insertion is a permutation of consing. -/
theorem perm_insertByLe {α : Type} (le : α → α → Bool) (x : α) (l : List α) :
    List.Perm (insertByLe le x l) (x :: l) := by
  induction l with
  | nil => simp [insertByLe]
  | cons y ys ih =>
    by_cases h : le y x = true
    · rw [insertByLe, if_pos h]
      exact (ih.cons y).trans (List.Perm.swap x y ys)
    · rw [insertByLe, if_neg h]

/-- The stable sort permutes its input. -/
theorem perm_stableSortByLe {α : Type} (le : α → α → Bool) (l : List α) :
    List.Perm (stableSortByLe le l) l := by
  have key : ∀ (l acc : List α),
      List.Perm (l.foldl (fun acc x => insertByLe le x acc) acc) (l ++ acc) := by
    intro l
    induction l with
    | nil => intro acc; simp
    | cons x xs ih =>
      intro acc
      refine ((ih (insertByLe le x acc)).trans ?_)
      refine (List.Perm.append_left xs (perm_insertByLe le x acc)).trans ?_
      exact List.perm_middle
  simpa using key l []

/-- The stable sort preserves length. -/
theorem length_stableSortByLe {α : Type} (le : α → α → Bool) (l : List α) :
    (stableSortByLe le l).length = l.length :=
  (perm_stableSortByLe le l).length_eq

/-- Inserting an element that dominates the whole accumulator appends it. -/
theorem insertByLe_append_of_forall {α : Type} (le : α → α → Bool) (x : α) (l : List α)
    (h : ∀ y ∈ l, le y x = true) : insertByLe le x l = l ++ [x] := by
  induction l with
  | nil => simp [insertByLe]
  | cons y ys ih =>
    rw [insertByLe, if_pos (h y (by simp))]
    simp [ih (fun z hz => h z (by simp [hz]))]

/-- Sorting an already sorted list is the identity. -/
theorem stableSortByLe_of_pairwise {α : Type} {le : α → α → Bool} (l : List α)
    (hl : l.Pairwise (fun a b => le a b = true)) : stableSortByLe le l = l := by
  have key : ∀ (l acc : List α), acc.Pairwise (fun a b => le a b = true) →
      (∀ y ∈ acc, ∀ x ∈ l, le y x = true) →
      l.Pairwise (fun a b => le a b = true) →
      (l.foldl (fun acc x => insertByLe le x acc) acc) = acc ++ l := by
    intro l
    induction l with
    | nil => intro acc _ _ _; simp
    | cons x xs ih =>
      intro acc hacc hcross hl
      rcases List.pairwise_cons.mp hl with ⟨hx, hxs⟩
      have hins : insertByLe le x acc = acc ++ [x] :=
        insertByLe_append_of_forall le x acc (fun y hy => hcross y hy x (by simp))
      have hacc' : (acc ++ [x]).Pairwise (fun a b => le a b = true) := by
        refine List.pairwise_append.mpr ⟨hacc, by simp, ?_⟩
        intro y hy z hz
        rcases List.mem_singleton.mp hz with rfl
        exact hcross y hy z (by simp)
      have hcross' : ∀ y ∈ acc ++ [x], ∀ z ∈ xs, le y z = true := by
        intro y hy z hz
        rcases List.mem_append.mp hy with hy | hy
        · exact hcross y hy z (by simp [hz])
        · rcases List.mem_singleton.mp hy with rfl
          exact hx z hz
      calc (x :: xs).foldl (fun acc x => insertByLe le x acc) acc
          = xs.foldl (fun acc x => insertByLe le x acc) (acc ++ [x]) := by
            simp [List.foldl_cons, hins]
        _ = (acc ++ [x]) ++ xs := ih (acc ++ [x]) hacc' hcross' hxs
        _ = acc ++ (x :: xs) := by simp
  simpa using key l [] (by simp) (by simp) hl

/-! Lemmas about the dict model. -/

/-- Looking up the just-assigned key returns the new value. -/
theorem lookup_alInsert_self {α : Type} (k : String) (v : α) (m : List (String × α)) :
    (alInsert k v m).lookup k = some v := by
  induction m with
  | nil => simp [alInsert, List.lookup]
  | cons p t ih =>
    by_cases hp : p.1 = k
    · rw [alInsert, if_pos hp]
      simp [List.lookup]
    · rw [alInsert, if_neg hp]
      have hk : (k == p.1) = false := by
        simp only [beq_eq_false_iff_ne, ne_eq]
        exact fun hh => hp hh.symm
      simp [List.lookup, hk, ih]

/-- Looking up a different key is unchanged by an assignment. -/
theorem lookup_alInsert_ne {α : Type} (k k' : String) (v : α) (m : List (String × α))
    (hne : k' ≠ k) : (alInsert k v m).lookup k' = m.lookup k' := by
  have hb : (k' == k) = false := by simpa [beq_eq_false_iff_ne] using hne
  induction m with
  | nil => simp [alInsert, List.lookup, hb]
  | cons p t ih =>
    by_cases hp : p.1 = k
    · rw [alInsert, if_pos hp]
      have h1 : (k' == k) = false := by simpa [beq_eq_false_iff_ne] using hne
      have h2 : (k' == p.1) = false := by
        rw [hp]
        exact h1
      simp [List.lookup, h1, h2]
    · rw [alInsert, if_neg hp]
      by_cases hk : k' = p.1
      · simp [List.lookup, hk]
      · have h2 : (k' == p.1) = false := by simpa [beq_eq_false_iff_ne] using hk
        simp [List.lookup, h2, ih]

/-- Assigning a fresh key appends the pair. -/
theorem alInsert_of_fresh {α : Type} (k : String) (v : α) (m : List (String × α))
    (h : ∀ p ∈ m, p.1 ≠ k) : alInsert k v m = m ++ [(k, v)] := by
  induction m with
  | nil => simp [alInsert]
  | cons p t ih =>
    rw [alInsert, if_neg (h p (by simp))]
    simp [ih (fun q hq => h q (by simp [hq]))]

/-- A key absent from a dict looks up to none. -/
theorem lookup_eq_none_of_forall_ne {α : Type} (k : String) (m : List (String × α))
    (h : ∀ p ∈ m, p.1 ≠ k) : m.lookup k = none := by
  induction m with
  | nil => simp [List.lookup]
  | cons p t ih =>
    have hk : (k == p.1) = false := by
      simp only [beq_eq_false_iff_ne, ne_eq]
      exact fun hh => h p (by simp) hh.symm
    simp [List.lookup, hk, ih (fun q hq => h q (by simp [hq]))]

/-- Folding fresh, pairwise-distinct dict assignments appends the pairs in
order. -/
theorem foldl_alInsert_append {α β : Type} (f : β → String) (g : β → α) :
    ∀ (ps : List β) (m : List (String × α)),
      (∀ p ∈ ps, ∀ r ∈ m, r.1 ≠ f p) → (ps.map f).Nodup →
      ps.foldl (fun m p => alInsert (f p) (g p) m) m = m ++ ps.map (fun p => (f p, g p)) := by
  intro ps
  induction ps with
  | nil => intro m _ _; simp
  | cons p t ih =>
    intro m hfresh hnd
    have h1 : alInsert (f p) (g p) m = m ++ [(f p, g p)] :=
      alInsert_of_fresh _ _ m (fun r hr => hfresh p (by simp) r hr)
    have hhead : f p ∉ t.map f := (List.nodup_cons.mp (by simpa using hnd)).1
    have hnd' : (t.map f).Nodup := (List.nodup_cons.mp (by simpa using hnd)).2
    have hfresh' : ∀ q ∈ t, ∀ r ∈ m ++ [(f p, g p)], r.1 ≠ f q := by
      intro q hq r hr
      rcases List.mem_append.mp hr with hr | hr
      · exact hfresh q (by simp [hq]) r hr
      · rcases List.mem_singleton.mp hr with rfl
        intro hc
        have hc' : f p = f q := hc
        exact hhead (by rw [hc']; exact List.mem_map_of_mem f hq)
    calc (p :: t).foldl (fun m p => alInsert (f p) (g p) m) m
        = t.foldl (fun m p => alInsert (f p) (g p) m) (m ++ [(f p, g p)]) := by
          simp [List.foldl_cons, h1]
      _ = (m ++ [(f p, g p)]) ++ t.map (fun p => (f p, g p)) := ih _ hfresh' hnd'
      _ = m ++ (p :: t).map (fun p => (f p, g p)) := by simp

/-! Behavioural lemmas about `fetch_research_evidence`. -/

namespace Aggregator

open ResearchCache

/-- Final ranked and truncated list of the miss path. -/
def final_list (current_year : Int) (query : ResearchQuery) (task_results : List TaskResult) :
    List ResearchPaper :=
  pySliceTo (rank_desc (score_papers current_year query (combine_results task_results)))
    query.max_results

/-- Unfolding equation of the miss branch. -/
theorem miss_result_eq (now current_year : Int) (query : ResearchQuery)
    (task_results : List TaskResult) (st : CacheState) :
    miss_result now current_year query task_results st =
      ({ query := query.query, intent := query.intent
       , total_found := (combine_results task_results).length
       , returned := (final_list current_year query task_results).length
       , papers := final_list current_year query task_results, cached := false },
       if (final_list current_year query task_results).isEmpty then st
       else (cache_query_results now ttlHours query (final_list current_year query task_results) st).2) :=
  rfl

/-- A fetch that reports `cached = false` is the miss branch run on the state
left behind by the cache read. -/
theorem fetch_eq_miss_of_cached_false (now current_year : Int) (query : ResearchQuery)
    (task_results : List TaskResult) (st : CacheState)
    (h : (fetch_research_evidence now current_year query task_results st).1.cached = false) :
    fetch_research_evidence now current_year query task_results st =
      miss_result now current_year query task_results (get_query_results now query st).2 := by
  unfold fetch_research_evidence at h ⊢
  rcases hr : get_query_results now query st with ⟨copt, st1⟩
  rw [hr] at h
  rcases copt with _ | ps
  · rfl
  · rcases ps with _ | ⟨p, ps⟩
    · rfl
    · simp [hit_result] at h

/-- A fetch that reads a non-empty cached list is the hit branch. -/
theorem fetch_eq_hit (now current_year : Int) (query : ResearchQuery)
    (task_results : List TaskResult) (st : CacheState) (p : ResearchPaper)
    (ps : List ResearchPaper)
    (h : (get_query_results now query st).1 = some (p :: ps)) :
    fetch_research_evidence now current_year query task_results st =
      (hit_result query (p :: ps), (get_query_results now query st).2) := by
  unfold fetch_research_evidence
  rcases hr : get_query_results now query st with ⟨copt, st1⟩
  rw [hr] at h
  simp only at h
  rw [h]

/-- The ranking step sorts descending by the blended key. -/
theorem pairwise_rank_desc (papers : List ResearchPaper) :
    (rank_desc papers).Pairwise (fun a b => blend_key b ≤ blend_key a) := by
  have h := @pairwise_stableSortByLe ResearchPaper
    (fun a b : ResearchPaper => decide (blend_key b ≤ blend_key a))
    (fun a b c hab hbc => by
      simp only [decide_eq_true_eq] at hab hbc ⊢
      exact le_trans hbc hab)
    (fun a b => by
      simp only [decide_eq_true_eq]
      exact le_total (blend_key b) (blend_key a))
    papers
  exact h.imp (fun hab => of_decide_eq_true hab)

/-- Python truncation is a sublist. -/
theorem pySliceTo_sublist {α : Type} (l : List α) (n : Int) : (pySliceTo l n).Sublist l := by
  unfold pySliceTo
  split
  · exact List.take_sublist _ _
  · exact List.take_sublist _ _

/-- The final list of the miss path is sorted descending by the blended key. -/
theorem pairwise_final_list (current_year : Int) (query : ResearchQuery)
    (task_results : List TaskResult) :
    (final_list current_year query task_results).Pairwise
      (fun a b => blend_key b ≤ blend_key a) :=
  (pairwise_rank_desc _).sublist (pySliceTo_sublist _ _)

/-- Skipping failed tasks does not change the combined paper list. -/
theorem combine_results_filter_ok (task_results : List TaskResult) :
    combine_results task_results = combine_results (task_results.filter task_ok) := by
  have key : ∀ (ts : List TaskResult) (acc : List ResearchPaper),
      (ts.foldl (fun acc r =>
        match r with
        | Except.ok papers => acc ++ papers
        | Except.error _ => acc) acc) =
      ((ts.filter task_ok).foldl (fun acc r =>
        match r with
        | Except.ok papers => acc ++ papers
        | Except.error _ => acc) acc) := by
    intro ts
    induction ts with
    | nil => intro acc; rfl
    | cons t rest ih =>
      intro acc
      rcases t with e | papers
      · simpa [List.filter, task_ok] using ih acc
      · simpa [List.filter, task_ok] using ih (acc ++ papers)
  exact key task_results []

end Aggregator

/-! Fixtures for the concrete counterexamples and witnesses. -/

/-- Query with empty text, general intent and one compound of interest. -/
def cexQuery : ResearchQuery :=
  { query := "", intent := "general", compounds := ["CBD"], min_year := 2015, max_results := 15 }

/-- Paper from an unrecognized source with no venue: credibility 3.22,
relevance 0.36 against `cexQuery`. -/
def cexLowCred : ResearchPaper :=
  { basePaper with title := "Effects of cannabinoids", abstract := "cbd", year := 2020 }

/-- Paper from Europe PMC in a high-impact venue whose abstract carries a
negative-signal term: credibility 6.22, relevance 0.16 against `cexQuery`;
its blended score equals that of `cexLowCred`. -/
def cexHighCred : ResearchPaper :=
  { basePaper with
    title := "Effects of cannabinoids", abstract := "cbd failed",
    source := "europe_pmc", journal := "Nature Medicine", year := 2020 }

/-- Ranking order asserted by the specification: blended score descending,
ties by credibility descending, remaining ties by year descending. -/
def claimedRankOrder (a b : ResearchPaper) : Prop :=
  Aggregator.blend_key b < Aggregator.blend_key a ∨
    (Aggregator.blend_key b = Aggregator.blend_key a ∧
      (b.credibility_score < a.credibility_score ∨
        (b.credibility_score = a.credibility_score ∧ b.year ≤ a.year)))

instance (a b : ResearchPaper) : Decidable (claimedRankOrder a b) := by
  unfold claimedRankOrder
  infer_instance

/-- Scored form of `cexLowCred` produced by the miss path. -/
def cexLowScored : ResearchPaper :=
  { cexLowCred with
    credibility_score := 161/50, relevance_score := 9/25,
    full_citation := " (2020). Effects of cannabinoids. ." }

/-- Scored form of `cexHighCred` produced by the miss path. -/
def cexHighScored : ResearchPaper :=
  { cexHighCred with
    credibility_score := 311/50, relevance_score := 4/25,
    full_citation := " (2020). Effects of cannabinoids. Nature Medicine." }

/-- Relevance scoring never reads the credibility field. -/
theorem score_relevance_credibility_irrelevant (p : ResearchPaper) (q : ResearchQuery) (c : ℚ) :
    RelevanceMatcher.score_relevance { p with credibility_score := c } q
      = RelevanceMatcher.score_relevance p q := rfl

/-- Credibility of the unrecognized-source fixture. -/
theorem cex_low_cred : CredibilityScorer.score_paper 2026 cexLowCred = 161/50 := by
  unfold CredibilityScorer.score_paper CredibilityScorer.get_base_source_score
    CredibilityScorer.get_study_type_score CredibilityScorer.get_journal_score
    CredibilityScorer.get_recency_score CredibilityScorer.get_citation_score
    CredibilityScorer.get_authority_score CredibilityScorer.author_loop
  rw [show List.lookup cexLowCred.source CredibilityScorer.source_scores = none from rfl,
    show List.lookup cexLowCred.study_type CredibilityScorer.study_type_scores = none from rfl]
  simp +decide only [cexLowCred, basePaper]
  norm_num [min_def, max_def]

/-- Credibility of the Europe-PMC fixture. -/
theorem cex_high_cred : CredibilityScorer.score_paper 2026 cexHighCred = 311/50 := by
  unfold CredibilityScorer.score_paper CredibilityScorer.get_base_source_score
    CredibilityScorer.get_study_type_score CredibilityScorer.get_journal_score
    CredibilityScorer.get_recency_score CredibilityScorer.get_citation_score
    CredibilityScorer.get_authority_score CredibilityScorer.author_loop
  rw [show List.lookup cexHighCred.source CredibilityScorer.source_scores = some 3.5 from rfl,
    show List.lookup cexHighCred.study_type CredibilityScorer.study_type_scores = none from rfl]
  simp +decide only [cexHighCred, basePaper]
  norm_num [min_def, max_def]

/-- Relevance of the unrecognized-source fixture against `cexQuery`. -/
theorem cex_low_rel : RelevanceMatcher.score_relevance cexLowCred cexQuery = 9/25 := by
  unfold RelevanceMatcher.score_relevance RelevanceMatcher.score_query_match
    RelevanceMatcher.score_intent_match RelevanceMatcher.score_compound_match
    RelevanceMatcher.score_study_type_relevance RelevanceMatcher.score_title_relevance
    RelevanceMatcher.score_negative_indicators
  simp +decide only [cexLowCred, cexQuery, basePaper, List.map, List.foldl,
    RelevanceMatcher.intent_keywords, RelevanceMatcher.compound_synonyms,
    RelevanceMatcher.intent_study_preferences, RelevanceMatcher.stop_words, List.lookup,
    List.filter, List.length, List.isEmpty, String.reduceBEq, String.reduceEq,
    show strLower "CBD" = "cbd" from rfl]
  norm_num [min_def, max_def]

/-- Relevance of the Europe-PMC fixture against `cexQuery`. -/
theorem cex_high_rel : RelevanceMatcher.score_relevance cexHighCred cexQuery = 4/25 := by
  unfold RelevanceMatcher.score_relevance RelevanceMatcher.score_query_match
    RelevanceMatcher.score_intent_match RelevanceMatcher.score_compound_match
    RelevanceMatcher.score_study_type_relevance RelevanceMatcher.score_title_relevance
    RelevanceMatcher.score_negative_indicators
  simp +decide only [cexHighCred, cexQuery, basePaper, List.map, List.foldl,
    RelevanceMatcher.intent_keywords, RelevanceMatcher.compound_synonyms,
    RelevanceMatcher.intent_study_preferences, RelevanceMatcher.stop_words, List.lookup,
    List.filter, List.length, List.isEmpty, String.reduceBEq, String.reduceEq,
    show strLower "CBD" = "cbd" from rfl]
  norm_num [min_def, max_def]

/-- Scoring the gathered fixtures yields the scored fixtures. -/
theorem cex_scored :
    Aggregator.score_papers 2026 cexQuery [cexLowCred, cexHighCred]
      = [cexLowScored, cexHighScored] := by
  unfold Aggregator.score_papers
  simp only [List.map]
  simp only [cex_low_cred, cex_high_cred, score_relevance_credibility_irrelevant,
    cex_low_rel, cex_high_rel]
  rfl

/-- Blended keys of the scored fixtures agree. -/
theorem cex_blend_eq :
    Aggregator.blend_key cexLowScored = Aggregator.blend_key cexHighScored := by
  norm_num [Aggregator.blend_key, cexLowScored, cexHighScored, cexLowCred, cexHighCred,
    basePaper]

/-- Credibility of the first returned fixture is strictly below the second. -/
theorem cex_cred_lt :
    cexLowScored.credibility_score < cexHighScored.credibility_score := by
  norm_num [cexLowScored, cexHighScored, cexLowCred, cexHighCred, basePaper]

/-- Record list of the counterexample fetch. -/
theorem cex_papers :
    (Aggregator.fetch_research_evidence 0 2026 cexQuery [Except.ok [cexLowCred, cexHighCred]]
      (ResearchCache.emptyCache 1000)).1.papers = [cexLowScored, cexHighScored] := by
  rw [Aggregator.fetch_eq_miss_of_cached_false 0 2026 cexQuery
      [Except.ok [cexLowCred, cexHighCred]] (ResearchCache.emptyCache 1000) (by decide),
    Aggregator.miss_result_eq]
  show Aggregator.final_list 2026 cexQuery [Except.ok [cexLowCred, cexHighCred]] = _
  unfold Aggregator.final_list
  rw [show Aggregator.combine_results [Except.ok [cexLowCred, cexHighCred]]
      = [cexLowCred, cexHighCred] from rfl, cex_scored]
  have hsorted : Aggregator.rank_desc [cexLowScored, cexHighScored]
      = [cexLowScored, cexHighScored] := by
    unfold Aggregator.rank_desc
    apply stableSortByLe_of_pairwise
    refine List.pairwise_cons.mpr ⟨?_, by simp⟩
    intro b hb
    rcases List.mem_singleton.mp hb with rfl
    exact decide_eq_true (le_of_eq cex_blend_eq.symm)
  rw [hsorted]
  rfl

/-- C1. The claimed ordering fails on the code: with `cexQuery`, the adapters
returning `[cexLowCred, cexHighCred]` produce two records of equal blended
score whose stable sort keeps the lower-credibility record first, violating
the credibility-descending tie-break. -/
theorem C1_counterexample :
    ¬ ((Aggregator.fetch_research_evidence 0 2026 cexQuery
        [Except.ok [cexLowCred, cexHighCred]] (ResearchCache.emptyCache 1000)).1.papers.Pairwise
          claimedRankOrder) := by
  rw [cex_papers]
  intro hcontra
  have h2 : claimedRankOrder cexLowScored cexHighScored :=
    (List.pairwise_cons.mp hcontra).1 cexHighScored (by simp)
  rcases h2 with h | ⟨heq, h | ⟨heq2, _⟩⟩
  · rw [cex_blend_eq] at h
    exact lt_irrefl _ h
  · exact absurd h (not_lt.mpr cex_cred_lt.le)
  · exact absurd heq2 (ne_of_gt cex_cred_lt)

/-- C1 (amended). Every fresh (non-cached) fetch returns its records sorted in
descending order of the blended score `0.6 * relevance + 0.4 * (credibility / 10)`;
records of equal blended score keep their pre-sort order (Python's sort is
stable), with no credibility or year tie-break. -/
theorem C1_rank_descending_amended (now current_year : Int) (query : ResearchQuery)
    (task_results : List Aggregator.TaskResult) (st : ResearchCache.CacheState)
    (h : (Aggregator.fetch_research_evidence now current_year query task_results st).1.cached
        = false) :
    ((Aggregator.fetch_research_evidence now current_year query task_results st).1.papers).Pairwise
      (fun a b => Aggregator.blend_key b ≤ Aggregator.blend_key a) := by
  rw [Aggregator.fetch_eq_miss_of_cached_false now current_year query task_results st h,
    Aggregator.miss_result_eq]
  exact Aggregator.pairwise_final_list current_year query task_results

/-- C1 (amended), witness at the counterexample input. -/
theorem C1_rank_descending_witness :
    ((Aggregator.fetch_research_evidence 0 2026 cexQuery
        [Except.ok [cexLowCred, cexHighCred]] (ResearchCache.emptyCache 1000)).1.papers).Pairwise
      (fun a b => Aggregator.blend_key b ≤ Aggregator.blend_key a) :=
  C1_rank_descending_amended 0 2026 cexQuery [Except.ok [cexLowCred, cexHighCred]]
    (ResearchCache.emptyCache 1000) (by decide)

/-- C2. For every record, query and current year, the credibility scorer
returns a value in the closed interval from 0 to 10 and the relevance matcher
returns a value in the closed interval from 0 to 1; both end in an explicit
clamp, so this holds for arbitrary (also degenerate) inputs. -/
theorem C2_scorer_ranges (current_year : Int) (paper : ResearchPaper) (query : ResearchQuery) :
    (0 ≤ CredibilityScorer.score_paper current_year paper
      ∧ CredibilityScorer.score_paper current_year paper ≤ 10)
  ∧ (0 ≤ RelevanceMatcher.score_relevance paper query
      ∧ RelevanceMatcher.score_relevance paper query ≤ 1) := by
  refine ⟨⟨?_, ?_⟩, ?_, ?_⟩
  · unfold CredibilityScorer.score_paper
    exact le_min (le_max_right _ _) (by norm_num)
  · unfold CredibilityScorer.score_paper
    exact min_le_right _ _
  · unfold RelevanceMatcher.score_relevance
    exact le_max_left _ _
  · unfold RelevanceMatcher.score_relevance
    exact max_le (by norm_num) (min_le_left _ _)

/-- Every value of a concrete score table satisfying a bound transfers to the
defaulted lookup. -/
theorem getD_lookup_of_forall {P : ℚ → Prop} (l : List (String × ℚ)) (s : String) (d : ℚ)
    (hl : ∀ p ∈ l, P p.2) (hd : P d) : P ((l.lookup s).getD d) := by
  induction l with
  | nil => simpa [List.lookup] using hd
  | cons p t ih =>
    cases h : (s == p.1) with
    | true => simpa [List.lookup, h] using hl p (by simp)
    | false =>
      simp only [List.lookup, h]
      exact ih (fun q hq => hl q (by simp [hq]))

/-- C9. The study-type component `_get_study_type_score` always lies in the
closed interval from 0 to 3; a meta-analysis attains the maximal value 3,
a systematic review scores strictly below it, and a randomized controlled
trial strictly below that. -/
theorem C9_study_type_component :
    (∀ s : String,
      0 ≤ CredibilityScorer.get_study_type_score s
      ∧ CredibilityScorer.get_study_type_score s ≤ 3
      ∧ CredibilityScorer.get_study_type_score s
          ≤ CredibilityScorer.get_study_type_score "meta-analysis")
  ∧ CredibilityScorer.get_study_type_score "meta-analysis" = 3
  ∧ CredibilityScorer.get_study_type_score "systematic-review"
      < CredibilityScorer.get_study_type_score "meta-analysis"
  ∧ CredibilityScorer.get_study_type_score "randomized-controlled-trial"
      < CredibilityScorer.get_study_type_score "systematic-review" := by
  have hmeta : CredibilityScorer.get_study_type_score "meta-analysis" = 3 := by
    unfold CredibilityScorer.get_study_type_score
    rw [show List.lookup "meta-analysis" CredibilityScorer.study_type_scores
      = some 10 from rfl]
    norm_num
  have hsys : CredibilityScorer.get_study_type_score "systematic-review" = 27/10 := by
    unfold CredibilityScorer.get_study_type_score
    rw [show List.lookup "systematic-review" CredibilityScorer.study_type_scores
      = some 9 from rfl]
    norm_num
  have hrct : CredibilityScorer.get_study_type_score "randomized-controlled-trial" = 12/5 := by
    unfold CredibilityScorer.get_study_type_score
    rw [show List.lookup "randomized-controlled-trial" CredibilityScorer.study_type_scores
      = some 8 from rfl]
    norm_num
  refine ⟨?_, hmeta, by rw [hmeta, hsys]; norm_num, by rw [hsys, hrct]; norm_num⟩
  intro s
  have hb : 0 ≤ (CredibilityScorer.study_type_scores.lookup s).getD 3
      ∧ (CredibilityScorer.study_type_scores.lookup s).getD 3 ≤ 10 :=
    @getD_lookup_of_forall (fun v => 0 ≤ v ∧ v ≤ 10)
      CredibilityScorer.study_type_scores s 3
      (by norm_num [CredibilityScorer.study_type_scores]) (by norm_num)
  rw [hmeta]
  unfold CredibilityScorer.get_study_type_score
  refine ⟨by linarith [hb.1], ?_, ?_⟩
  · linarith [hb.1, hb.2]
  · linarith [hb.1, hb.2]

/-! Claim C4: cache-key determinism. -/

/-- The compound sort of the query signature is the same on any two
permutations of the compound list. -/
theorem sort_compounds_perm_eq (c₁ c₂ : List String) (h : List.Perm c₁ c₂) :
    stableSortByLe (fun a b : String => decide (a ≤ b)) c₁
      = stableSortByLe (fun a b : String => decide (a ≤ b)) c₂ := by
  have htrans : ∀ a b c : String, decide (a ≤ b) = true → decide (b ≤ c) = true →
      decide (a ≤ c) = true := by
    intro a b c hab hbc
    exact decide_eq_true (le_trans (of_decide_eq_true hab) (of_decide_eq_true hbc))
  have htot : ∀ a b : String, decide (a ≤ b) = true ∨ decide (b ≤ a) = true := by
    intro a b
    rcases le_total a b with hab | hba
    · exact Or.inl (decide_eq_true hab)
    · exact Or.inr (decide_eq_true hba)
  have hs₁ : (stableSortByLe (fun a b : String => decide (a ≤ b)) c₁).Sorted (· ≤ ·) :=
    (pairwise_stableSortByLe htrans htot c₁).imp (fun hab => of_decide_eq_true hab)
  have hs₂ : (stableSortByLe (fun a b : String => decide (a ≤ b)) c₂).Sorted (· ≤ ·) :=
    (pairwise_stableSortByLe htrans htot c₂).imp (fun hab => of_decide_eq_true hab)
  have hperm : List.Perm (stableSortByLe (fun a b : String => decide (a ≤ b)) c₁)
      (stableSortByLe (fun a b : String => decide (a ≤ b)) c₂) :=
    ((perm_stableSortByLe _ c₁).trans h).trans (perm_stableSortByLe _ c₂).symm
  exact List.eq_of_perm_of_sorted hperm hs₁ hs₂

/-- C4. The query differing from `cexQuery` only in the case of its compound. -/
def cexQueryLowerCase : ResearchQuery :=
  { query := "", intent := "general", compounds := ["cbd"], min_year := 2015, max_results := 15 }

/-- C4. Case-insensitivity fails on the code: two queries differing only in the
letter case of one compound produce different normalized signatures, hence
(sha256 being collision-free) different cache hashes and different cache
entries. -/
theorem C4_counterexample :
    ResearchCache.generate_query_hash cexQuery
      ≠ ResearchCache.generate_query_hash cexQueryLowerCase := by
  decide

/-- C4 (amended). The query hash is invariant under reordering of the compound
list (the signature sorts compounds), but not under case changes: the
normalized signature of `_generate_query_hash` applies no lowercasing. -/
theorem C4_hash_compound_order_amended (query intent : String) (min_year max_results : Int)
    (c₁ c₂ : List String) (h : List.Perm c₁ c₂) :
    ResearchCache.generate_query_hash ⟨query, intent, c₁, min_year, max_results⟩
      = ResearchCache.generate_query_hash ⟨query, intent, c₂, min_year, max_results⟩ := by
  unfold ResearchCache.generate_query_hash ResearchCache.pySortedListRepr
  rw [sort_compounds_perm_eq c₁ c₂ h]

/-- C4 (amended), witness: reordered compound lists share one hash. -/
theorem C4_hash_compound_order_witness :
    ResearchCache.generate_query_hash ⟨"sleep aid", "sleep", ["CBN", "CBD"], 2015, 15⟩
      = ResearchCache.generate_query_hash ⟨"sleep aid", "sleep", ["CBD", "CBN"], 2015, 15⟩ :=
  C4_hash_compound_order_amended "sleep aid" "sleep" 2015 15 ["CBN", "CBD"] ["CBD", "CBN"]
    (by decide)

/-! Claim C5: rejection of non-positive maxResults. -/

/-- Query with `max_results = 0`. -/
def rejQuery : ResearchQuery :=
  { query := "sleep aid", intent := "general", compounds := [], min_year := 2015,
    max_results := 0 }

/-- C5. No synchronous rejection happens for `maxResults <= 0`: the call runs
the cache read and the adapter fan-out like any other input and returns a
normal result — its `total_found` reflects the two records produced by the
adapters, and its record list is the empty Python slice. -/
theorem C5_counterexample :
    (Aggregator.fetch_research_evidence 0 2026 rejQuery
        [Except.ok [cexLowCred, cexHighCred]] (ResearchCache.emptyCache 1000)).1
      = { query := "sleep aid", intent := "general", total_found := 2, returned := 0,
          papers := [], cached := false } := by
  decide

/-- C5 (amended). `fetch` validates nothing: for a query with
`max_results = 0` the miss path still consults the cache and the adapters,
returns a result rather than raising, reports `total_found` as the full
gathered count, and returns an empty record list. -/
theorem C5_no_rejection_amended (now current_year : Int) (query : ResearchQuery)
    (task_results : List Aggregator.TaskResult) (st : ResearchCache.CacheState)
    (hmax : query.max_results = 0)
    (h : (Aggregator.fetch_research_evidence now current_year query task_results st).1.cached
        = false) :
    (Aggregator.fetch_research_evidence now current_year query task_results st).1.papers = []
    ∧ (Aggregator.fetch_research_evidence now current_year query task_results st).1.total_found
        = (Aggregator.combine_results task_results).length := by
  rw [Aggregator.fetch_eq_miss_of_cached_false now current_year query task_results st h,
    Aggregator.miss_result_eq]
  refine ⟨?_, rfl⟩
  show Aggregator.final_list current_year query task_results = []
  unfold Aggregator.final_list pySliceTo
  rw [hmax]
  simp

/-- C5 (amended), witness at the counterexample input. -/
theorem C5_no_rejection_witness :
    (Aggregator.fetch_research_evidence 0 2026 rejQuery
        [Except.ok [cexLowCred, cexHighCred]] (ResearchCache.emptyCache 1000)).1.papers = []
    ∧ (Aggregator.fetch_research_evidence 0 2026 rejQuery
        [Except.ok [cexLowCred, cexHighCred]] (ResearchCache.emptyCache 1000)).1.total_found
      = (Aggregator.combine_results [Except.ok [cexLowCred, cexHighCred]]).length :=
  C5_no_rejection_amended 0 2026 rejQuery [Except.ok [cexLowCred, cexHighCred]]
    (ResearchCache.emptyCache 1000) (by decide) (by decide)

/-! Claim C6: partial adapter failure. -/

/-- The truncated final list does not change when failed tasks are dropped. -/
theorem final_list_filter_ok (current_year : Int) (query : ResearchQuery)
    (task_results : List Aggregator.TaskResult) :
    Aggregator.final_list current_year query task_results
      = Aggregator.final_list current_year query (task_results.filter Aggregator.task_ok) := by
  unfold Aggregator.final_list
  rw [Aggregator.combine_results_filter_ok]

/-- C6. Failing adapters contribute nothing: a fetch over any mix of failed
and successful task outcomes equals the same fetch over the successful
outcomes alone, and on a fresh cache `total_found` counts exactly the records
of the successful tasks. -/
theorem C6_partial_failure (now current_year : Int) (query : ResearchQuery)
    (task_results : List Aggregator.TaskResult) (st : ResearchCache.CacheState) (cap : Nat) :
    Aggregator.fetch_research_evidence now current_year query task_results st
      = Aggregator.fetch_research_evidence now current_year query
          (task_results.filter Aggregator.task_ok) st
    ∧ (Aggregator.fetch_research_evidence now current_year query task_results
          (ResearchCache.emptyCache cap)).1.total_found
        = (Aggregator.combine_results (task_results.filter Aggregator.task_ok)).length := by
  have hmiss : ∀ st1 : ResearchCache.CacheState,
      Aggregator.miss_result now current_year query task_results st1
        = Aggregator.miss_result now current_year query
            (task_results.filter Aggregator.task_ok) st1 := by
    intro st1
    rw [Aggregator.miss_result_eq, Aggregator.miss_result_eq,
      Aggregator.combine_results_filter_ok, final_list_filter_ok]
  constructor
  · unfold Aggregator.fetch_research_evidence
    rcases hr : ResearchCache.get_query_results now query st with ⟨copt, st1⟩
    rcases copt with _ | ps
    · exact hmiss st1
    · rcases ps with _ | ⟨p, ps⟩
      · exact hmiss st1
      · rfl
  · have hread : ResearchCache.get_query_results now query (ResearchCache.emptyCache cap)
        = (none, ResearchCache.emptyCache cap) := rfl
    have hfetch : Aggregator.fetch_research_evidence now current_year query task_results
        (ResearchCache.emptyCache cap)
        = Aggregator.miss_result now current_year query task_results
            (ResearchCache.emptyCache cap) := by
      unfold Aggregator.fetch_research_evidence
      rw [hread]
    rw [hfetch, Aggregator.miss_result_eq]
    show (Aggregator.combine_results task_results).length = _
    rw [Aggregator.combine_results_filter_ok]

/-! Claims C3 and C10: cache round trip of a fresh fetch. -/

/-- Query with `max_results = 2` for the truncation scenario. -/
def c10Query : ResearchQuery :=
  { query := "", intent := "general", compounds := [], min_year := 2015, max_results := 2 }

/-- Third fixture paper, distinct from the two counterexample papers. -/
def cexThird : ResearchPaper :=
  { basePaper with title := "Cannabinoid pharmacology", year := 2021 }

/-- After caching a non-empty result, the memory tier maps the query hash to
the freshly stored entry. -/
theorem lookup_memory_after_cache (now ttl_hours : Int) (query : ResearchQuery)
    (papers : List ResearchPaper) (st : ResearchCache.CacheState) (hne : papers ≠ []) :
    (ResearchCache.cache_query_results now ttl_hours query papers st).2.memory_cache.lookup
        (ResearchCache.generate_query_hash query)
      = some ⟨papers, now + ttl_hours, now⟩ := by
  unfold ResearchCache.cache_query_results
  rw [if_neg (by simpa [List.isEmpty_iff] using hne)]
  exact lookup_alInsert_self _ _ _

/-- A memory entry that has not expired is returned by the cache read. -/
theorem get_query_results_memory_hit (now : Int) (query : ResearchQuery)
    (st : ResearchCache.CacheState) (e : ResearchCache.MemEntry)
    (hm : st.memory_cache.lookup (ResearchCache.generate_query_hash query) = some e)
    (hexp : now < e.expires_at) :
    (ResearchCache.get_query_results now query st).1 = some e.papers := by
  simp only [ResearchCache.get_query_results]
  rw [hm]
  simp only [if_pos hexp]

/-- Core round trip: a fresh fetch that returns a non-empty record list leaves
a memory entry whose TTL window serves any later fetch of the same query as a
hit with the identical records — no task outcome of the second call matters. -/
theorem fetch_second_hit_core (now1 now2 cy1 cy2 : Int) (query : ResearchQuery)
    (ts1 ts2 : List Aggregator.TaskResult) (st : ResearchCache.CacheState)
    (h1 : (Aggregator.fetch_research_evidence now1 cy1 query ts1 st).1.cached = false)
    (h2 : (Aggregator.fetch_research_evidence now1 cy1 query ts1 st).1.papers ≠ [])
    (h3 : now2 < now1 + Aggregator.ttlHours) :
    (Aggregator.fetch_research_evidence now2 cy2 query ts2
        (Aggregator.fetch_research_evidence now1 cy1 query ts1 st).2).1
      = Aggregator.hit_result query
          ((Aggregator.fetch_research_evidence now1 cy1 query ts1 st).1.papers) := by
  have heq := Aggregator.fetch_eq_miss_of_cached_false now1 cy1 query ts1 st h1
  rw [heq, Aggregator.miss_result_eq] at h2 ⊢
  simp only at h2 ⊢
  set final := Aggregator.final_list cy1 query ts1 with hfinal
  have hnotempty : final.isEmpty = false := by
    rcases final with _ | ⟨p, ps⟩
    · exact absurd rfl h2
    · rfl
  rw [if_neg (by simp [hnotempty])]
  have hmem := lookup_memory_after_cache now1 Aggregator.ttlHours query final
    (ResearchCache.get_query_results now1 query st).2 h2
  have hget := get_query_results_memory_hit now2 query _ _ hmem h3
  rcases hfin : final with _ | ⟨p, ps⟩
  · exact absurd hfin h2
  · rw [hfin] at hget
    rw [Aggregator.fetch_eq_hit now2 cy2 query ts2 _ p ps hget]

/-- C3. The claim fails when the first call gathers no records: empty result
sets are never cached, so the repeat call within the TTL window is again a
fresh fetch (`cached = false`) rather than a cache hit. -/
theorem C3_counterexample :
    (Aggregator.fetch_research_evidence 1 2026 cexQuery [Except.ok []]
        (Aggregator.fetch_research_evidence 0 2026 cexQuery [Except.ok []]
          (ResearchCache.emptyCache 1000)).2).1.cached = false := by
  decide

/-- C3 (amended). If a fresh fetch returns a non-empty record list, any second
fetch of the same query before that entry's TTL expires returns the identical
record list from the cache, marked `cached = true`, independent of the second
call's adapter outcomes (no adapter calls, no rescoring). Empty first results
are not cached, so they are exempt. -/
theorem C3_idempotence_amended (now1 now2 current_year1 current_year2 : Int)
    (query : ResearchQuery) (ts1 ts2 : List Aggregator.TaskResult)
    (st : ResearchCache.CacheState)
    (h1 : (Aggregator.fetch_research_evidence now1 current_year1 query ts1 st).1.cached = false)
    (h2 : (Aggregator.fetch_research_evidence now1 current_year1 query ts1 st).1.papers ≠ [])
    (h3 : now2 < now1 + Aggregator.ttlHours) :
    (Aggregator.fetch_research_evidence now2 current_year2 query ts2
        (Aggregator.fetch_research_evidence now1 current_year1 query ts1 st).2).1
      = Aggregator.hit_result query
          ((Aggregator.fetch_research_evidence now1 current_year1 query ts1 st).1.papers) :=
  fetch_second_hit_core now1 now2 current_year1 current_year2 query ts1 ts2 st h1 h2 h3

/-- C3 (amended), witness: one non-empty fetch at time 0, repeated at time 1. -/
theorem C3_idempotence_witness :
    (Aggregator.fetch_research_evidence 1 2026 cexQuery [Except.ok []]
        (Aggregator.fetch_research_evidence 0 2026 cexQuery [Except.ok [cexLowCred]]
          (ResearchCache.emptyCache 1000)).2).1
      = Aggregator.hit_result cexQuery
          ((Aggregator.fetch_research_evidence 0 2026 cexQuery [Except.ok [cexLowCred]]
            (ResearchCache.emptyCache 1000)).1.papers) :=
  C3_idempotence_amended 0 1 2026 2026 cexQuery [Except.ok [cexLowCred]] [Except.ok []]
    (ResearchCache.emptyCache 1000) (by decide) (by decide) (by decide)

/-- Length of the miss path's final list when the cap is within range. -/
theorem final_list_length_of_le (current_year : Int) (query : ResearchQuery)
    (task_results : List Aggregator.TaskResult)
    (h0 : 0 ≤ query.max_results)
    (hle : query.max_results.toNat ≤ (Aggregator.combine_results task_results).length) :
    (Aggregator.final_list current_year query task_results).length
      = query.max_results.toNat := by
  unfold Aggregator.final_list pySliceTo
  rw [if_pos h0, List.length_take]
  have hlen : (Aggregator.rank_desc
      (Aggregator.score_papers current_year query
        (Aggregator.combine_results task_results))).length
      = (Aggregator.combine_results task_results).length := by
    unfold Aggregator.rank_desc Aggregator.score_papers
    rw [length_stableSortByLe, List.length_map]
  omega

/-- C10. On a cache hit `total_found` is the cached (truncated) count, while
the preceding fresh fetch reported the full pre-truncation count; when more
records were gathered than `maxResults`, the hit value is strictly smaller. -/
theorem C10_total_found_shrinks (now1 now2 current_year : Int) (query : ResearchQuery)
    (ts1 ts2 : List Aggregator.TaskResult) (st : ResearchCache.CacheState)
    (h1 : (Aggregator.fetch_research_evidence now1 current_year query ts1 st).1.cached = false)
    (hpos : 0 < query.max_results)
    (hlt : query.max_results.toNat < (Aggregator.combine_results ts1).length)
    (h3 : now2 < now1 + Aggregator.ttlHours) :
    (Aggregator.fetch_research_evidence now2 current_year query ts2
        (Aggregator.fetch_research_evidence now1 current_year query ts1 st).2).1.total_found
      = query.max_results.toNat
    ∧ (Aggregator.fetch_research_evidence now1 current_year query ts1 st).1.total_found
        = (Aggregator.combine_results ts1).length
    ∧ query.max_results.toNat
        < (Aggregator.fetch_research_evidence now1 current_year query ts1 st).1.total_found := by
  have hflen : (Aggregator.final_list current_year query ts1).length
      = query.max_results.toNat :=
    final_list_length_of_le current_year query ts1 (le_of_lt hpos) (le_of_lt hlt)
  have hpapers : (Aggregator.fetch_research_evidence now1 current_year query ts1 st).1.papers
      = Aggregator.final_list current_year query ts1 := by
    rw [Aggregator.fetch_eq_miss_of_cached_false now1 current_year query ts1 st h1,
      Aggregator.miss_result_eq]
  have h2 : (Aggregator.fetch_research_evidence now1 current_year query ts1 st).1.papers
      ≠ [] := by
    rw [hpapers]
    intro hnil
    rw [hnil] at hflen
    simp at hflen
    omega
  have hhit := fetch_second_hit_core now1 now2 current_year current_year query ts1 ts2 st
    h1 h2 h3
  refine ⟨?_, ?_, ?_⟩
  · rw [hhit]
    show ((Aggregator.fetch_research_evidence now1 current_year query ts1 st).1.papers).length
      = _
    rw [hpapers, hflen]
  · rw [Aggregator.fetch_eq_miss_of_cached_false now1 current_year query ts1 st h1,
      Aggregator.miss_result_eq]
  · rw [Aggregator.fetch_eq_miss_of_cached_false now1 current_year query ts1 st h1,
      Aggregator.miss_result_eq]
    exact hlt

/-- C10, witness: three gathered records, `maxResults = 2`, hit reports 2
against the miss path's 3. -/
theorem C10_total_found_witness :
    (Aggregator.fetch_research_evidence 1 2026 c10Query [Except.ok []]
        (Aggregator.fetch_research_evidence 0 2026 c10Query
          [Except.ok [cexLowCred, cexHighCred], Except.ok [cexThird]]
          (ResearchCache.emptyCache 1000)).2).1.total_found = 2
    ∧ (Aggregator.fetch_research_evidence 0 2026 c10Query
          [Except.ok [cexLowCred, cexHighCred], Except.ok [cexThird]]
          (ResearchCache.emptyCache 1000)).1.total_found = 3
    ∧ 2 < (Aggregator.fetch_research_evidence 0 2026 c10Query
          [Except.ok [cexLowCred, cexHighCred], Except.ok [cexThird]]
          (ResearchCache.emptyCache 1000)).1.total_found := by
  have h := C10_total_found_shrinks 0 1 2026 c10Query
    [Except.ok [cexLowCred, cexHighCred], Except.ok [cexThird]] [Except.ok []]
    (ResearchCache.emptyCache 1000) (by decide) (by decide) (by decide) (by decide)
  have hcomb : (Aggregator.combine_results
      [Except.ok [cexLowCred, cexHighCred], Except.ok [cexThird]]).length = 3 := by decide
  exact ⟨h.1, by rw [h.2.1, hcomb], by rw [hcomb] at h; exact h.2.2⟩

/-! Claim C8: expiry on read and cleanup of the persistent tier. -/

/-- Filtering a predicate and its negation splits the length. -/
theorem length_filter_split {α : Type} (p : α → Bool) (l : List α) :
    (l.filter p).length + (l.filter (fun a => !(p a))).length = l.length := by
  induction l with
  | nil => rfl
  | cons a t ih =>
    cases hp : p a <;> simp [List.filter_cons, hp, ← ih] <;> omega

/-- A disk read returns nothing when the query row is expired or absent. -/
theorem disk_lookup_none_of_expired (now : Int) (query_hash : String)
    (st : ResearchCache.CacheState)
    (hdisk : ((st.disk_queries.lookup query_hash).all
      (fun r => decide (r.expires_at ≤ now))) = true) :
    (ResearchCache.disk_lookup now query_hash st).1 = none := by
  unfold ResearchCache.disk_lookup
  cases hq : st.disk_queries.lookup query_hash with
  | none => rfl
  | some row =>
    rw [hq] at hdisk
    simp only [Option.all] at hdisk
    have hnlt : ¬ (row.expires_at > now) := by
      simp only [decide_eq_true_eq] at hdisk
      omega
    dsimp only
    rw [if_neg hnlt]

/-- C8. A cache entry whose expiry lies in the past is never returned by a
read, from neither tier, and `cleanup_expired` deletes exactly the expired
persisted rows and returns their count. -/
theorem C8_expiry_semantics (now : Int) (query : ResearchQuery)
    (st : ResearchCache.CacheState) :
    ((((st.memory_cache.lookup (ResearchCache.generate_query_hash query)).all
        (fun e => decide (e.expires_at ≤ now))) = true) →
     (((st.disk_queries.lookup (ResearchCache.generate_query_hash query)).all
        (fun r => decide (r.expires_at ≤ now))) = true) →
     (ResearchCache.get_query_results now query st).1 = none)
  ∧ (∀ r ∈ (ResearchCache.cleanup_expired now st).2.disk_papers, now < r.2.expires_at)
  ∧ (∀ r ∈ (ResearchCache.cleanup_expired now st).2.disk_queries, now < r.2.expires_at)
  ∧ (∀ r ∈ st.disk_papers, now < r.2.expires_at →
      r ∈ (ResearchCache.cleanup_expired now st).2.disk_papers)
  ∧ (∀ r ∈ st.disk_queries, now < r.2.expires_at →
      r ∈ (ResearchCache.cleanup_expired now st).2.disk_queries)
  ∧ (ResearchCache.cleanup_expired now st).1
      + (ResearchCache.cleanup_expired now st).2.disk_papers.length
      + (ResearchCache.cleanup_expired now st).2.disk_queries.length
      = st.disk_papers.length + st.disk_queries.length := by
  refine ⟨?_, ?_, ?_, ?_, ?_, ?_⟩
  · intro hmem hdisk
    simp only [ResearchCache.get_query_results]
    cases hm : st.memory_cache.lookup (ResearchCache.generate_query_hash query) with
    | none =>
      dsimp only
      exact disk_lookup_none_of_expired now _ st hdisk
    | some e =>
      rw [hm] at hmem
      simp only [Option.all] at hmem
      have hnlt : ¬ (now < e.expires_at) := by
        simp only [decide_eq_true_eq] at hmem
        omega
      dsimp only
      rw [if_neg hnlt]
      exact disk_lookup_none_of_expired now _ _ hdisk
  · intro r hr
    simpa using (List.mem_filter.mp hr).2
  · intro r hr
    simpa using (List.mem_filter.mp hr).2
  · intro r hr hexp
    exact List.mem_filter.mpr ⟨hr, by simpa using hexp⟩
  · intro r hr hexp
    exact List.mem_filter.mpr ⟨hr, by simpa using hexp⟩
  · unfold ResearchCache.cleanup_expired
    simp only []
    have hp := length_filter_split
      (fun r : String × ResearchCache.PaperRow => decide (r.2.expires_at ≤ now)) st.disk_papers
    have hq := length_filter_split
      (fun r : String × ResearchCache.QueryRow => decide (r.2.expires_at ≤ now)) st.disk_queries
    have hkey : ∀ e : Int, (!(decide (e ≤ now))) = decide (now < e) := by
      intro e
      rw [← decide_not]
      exact decide_eq_decide.mpr not_le
    have hpb : st.disk_papers.filter
        (fun r => !(decide (r.2.expires_at ≤ now)))
        = st.disk_papers.filter (fun r => decide (now < r.2.expires_at)) :=
      List.filter_congr (fun r _ => hkey r.2.expires_at)
    have hqb : st.disk_queries.filter
        (fun r => !(decide (r.2.expires_at ≤ now)))
        = st.disk_queries.filter (fun r => decide (now < r.2.expires_at)) :=
      List.filter_congr (fun r _ => hkey r.2.expires_at)
    rw [hpb] at hp
    rw [hqb] at hq
    omega

/-- Expired fixture state: one expired memory entry and one expired disk row
for `cexQuery`, plus its (expired) paper row. -/
def expiredState : ResearchCache.CacheState :=
  { max_memory_entries := 1000
  , memory_cache := [(ResearchCache.generate_query_hash cexQuery, ⟨[cexLowCred], 50, 0⟩)]
  , access_times := [(ResearchCache.generate_query_hash cexQuery, 0)]
  , disk_papers := [(ResearchCache.generate_paper_hash cexLowCred,
      ⟨ResearchCache.generate_query_hash cexQuery, cexLowCred, 80⟩)]
  , disk_queries := [(ResearchCache.generate_query_hash cexQuery,
      ⟨[ResearchCache.generate_paper_hash cexLowCred], 80, 0, 0⟩)] }

/-- C8, witness: at time 100 the expired entry is not returned by the read. -/
theorem C8_expiry_witness :
    (ResearchCache.get_query_results 100 cexQuery expiredState).1 = none :=
  (C8_expiry_semantics 100 cexQuery expiredState).1 (by decide) (by decide)

/-! Claim C7: batch eviction of the memory tier with persistent-tier fallback. -/

namespace ResearchCache

/-- One query result to insert: the query and its non-empty ranked papers. -/
abbrev InsertItem : Type := ResearchQuery × List ResearchPaper

/-- Fallback item for out-of-range indexing. -/
def dummyItem : InsertItem := (⟨"", "general", [], 2015, 15⟩, [])

/-- Cache `items` one after the other, item `i` at time `t0 + i`. -/
def insertAllAt (ttl : Int) : Int → List InsertItem → CacheState → CacheState
  | _, [], st => st
  | t0, (q, ps) :: rest, st =>
    insertAllAt ttl (t0 + 1) rest (cache_query_results t0 ttl q ps st).2

/-- Memory entries the inserts create, in insertion order. -/
def expectedMem (ttl : Int) : Int → List InsertItem → List (String × MemEntry)
  | _, [] => []
  | t0, (q, ps) :: rest =>
    (generate_query_hash q, ⟨ps, t0 + ttl, t0⟩) :: expectedMem ttl (t0 + 1) rest

/-- Access times the inserts create, in insertion order. -/
def expectedTimes : Int → List InsertItem → List (String × Int)
  | _, [] => []
  | t0, (q, _) :: rest => (generate_query_hash q, t0) :: expectedTimes (t0 + 1) rest

/-- Persistent query rows the inserts create, in insertion order. -/
def expectedQueryRows (ttl : Int) : Int → List InsertItem → List (String × QueryRow)
  | _, [] => []
  | t0, (q, ps) :: rest =>
    (generate_query_hash q, ⟨ps.map generate_paper_hash, t0 + ttl, 0, t0⟩)
      :: expectedQueryRows ttl (t0 + 1) rest

/-- Persistent paper rows the inserts create, in insertion order. -/
def expectedPaperRows (ttl : Int) : Int → List InsertItem → List (String × PaperRow)
  | _, [] => []
  | t0, (q, ps) :: rest =>
    ps.map (fun p => (generate_paper_hash p, ⟨generate_query_hash q, p, t0 + ttl⟩))
      ++ expectedPaperRows ttl (t0 + 1) rest

/-- The run of claim C7: `items` inserted into a fresh cache of capacity `C`. -/
def evictionRun (C : Nat) (ttl t0 : Int) (items : List InsertItem) : CacheState :=
  insertAllAt ttl t0 items (emptyCache C)

/-- Keys of the expected memory entries. -/
theorem expectedMem_keys (ttl : Int) :
    ∀ (t0 : Int) (items : List InsertItem),
      (expectedMem ttl t0 items).map Prod.fst
        = items.map (fun x => generate_query_hash x.1)
  | _, [] => rfl
  | t0, (q, ps) :: rest => by
    simp [expectedMem, expectedMem_keys ttl (t0 + 1) rest]

/-- Keys of the expected access times. -/
theorem expectedTimes_keys :
    ∀ (t0 : Int) (items : List InsertItem),
      (expectedTimes t0 items).map Prod.fst
        = items.map (fun x => generate_query_hash x.1)
  | _, [] => rfl
  | t0, (q, ps) :: rest => by
    simp [expectedTimes, expectedTimes_keys (t0 + 1) rest]

/-- Keys of the expected query rows. -/
theorem expectedQueryRows_keys (ttl : Int) :
    ∀ (t0 : Int) (items : List InsertItem),
      (expectedQueryRows ttl t0 items).map Prod.fst
        = items.map (fun x => generate_query_hash x.1)
  | _, [] => rfl
  | t0, (q, ps) :: rest => by
    simp [expectedQueryRows, expectedQueryRows_keys ttl (t0 + 1) rest]

/-- Length of the expected memory entries. -/
theorem expectedMem_length (ttl : Int) :
    ∀ (t0 : Int) (items : List InsertItem),
      (expectedMem ttl t0 items).length = items.length
  | _, [] => rfl
  | t0, (q, ps) :: rest => by
    simp [expectedMem, expectedMem_length ttl (t0 + 1) rest]

/-- Length of the expected access times. -/
theorem expectedTimes_length :
    ∀ (t0 : Int) (items : List InsertItem),
      (expectedTimes t0 items).length = items.length
  | _, [] => rfl
  | t0, (q, ps) :: rest => by
    simp [expectedTimes, expectedTimes_length (t0 + 1) rest]

/-- Every expected access time is at least the starting time. -/
theorem expectedTimes_time_ge :
    ∀ (t0 : Int) (items : List InsertItem), ∀ y ∈ expectedTimes t0 items, t0 ≤ y.2 := by
  intro t0 items
  induction items generalizing t0 with
  | nil => intro y hy; simp [expectedTimes] at hy
  | cons x rest ih =>
    rcases x with ⟨q, ps⟩
    intro y hy
    rcases List.mem_cons.mp hy with rfl | hy
    · simp
    · have := ih (t0 + 1) y hy
      omega

/-- The expected access times are sorted ascending by time. -/
theorem expectedTimes_sorted :
    ∀ (t0 : Int) (items : List InsertItem),
      (expectedTimes t0 items).Pairwise (fun a b => decide (a.2 ≤ b.2) = true) := by
  intro t0 items
  induction items generalizing t0 with
  | nil => simp [expectedTimes]
  | cons x rest ih =>
    rcases x with ⟨q, ps⟩
    refine List.pairwise_cons.mpr ⟨?_, ih (t0 + 1)⟩
    intro y hy
    have := expectedTimes_time_ge (t0 + 1) rest y hy
    exact decide_eq_true (by simp; omega)

/-- Splitting the expected memory entries across an append. -/
theorem expectedMem_append (ttl : Int) :
    ∀ (t0 : Int) (a b : List InsertItem),
      expectedMem ttl t0 (a ++ b)
        = expectedMem ttl t0 a ++ expectedMem ttl (t0 + a.length) b := by
  intro t0 a
  induction a generalizing t0 with
  | nil => intro b; simp [expectedMem]
  | cons x rest ih =>
    rcases x with ⟨q, ps⟩
    intro b
    simp only [List.cons_append, expectedMem, List.length_cons, List.append_eq]
    rw [ih (t0 + 1) b]
    have harith : t0 + 1 + (rest.length : Int) = t0 + ((rest.length + 1 : Nat) : Int) := by
      push_cast
      ring
    rw [harith]

/-- Splitting the expected query rows across an append. -/
theorem expectedQueryRows_append (ttl : Int) :
    ∀ (t0 : Int) (a b : List InsertItem),
      expectedQueryRows ttl t0 (a ++ b)
        = expectedQueryRows ttl t0 a ++ expectedQueryRows ttl (t0 + a.length) b := by
  intro t0 a
  induction a generalizing t0 with
  | nil => intro b; simp [expectedQueryRows]
  | cons x rest ih =>
    rcases x with ⟨q, ps⟩
    intro b
    simp only [List.cons_append, expectedQueryRows, List.length_cons, List.append_eq]
    rw [ih (t0 + 1) b]
    have harith : t0 + 1 + (rest.length : Int) = t0 + ((rest.length + 1 : Nat) : Int) := by
      push_cast
      ring
    rw [harith]

/-- Splitting the expected paper rows across an append. -/
theorem expectedPaperRows_append (ttl : Int) :
    ∀ (t0 : Int) (a b : List InsertItem),
      expectedPaperRows ttl t0 (a ++ b)
        = expectedPaperRows ttl t0 a ++ expectedPaperRows ttl (t0 + a.length) b := by
  intro t0 a
  induction a generalizing t0 with
  | nil => intro b; simp [expectedPaperRows]
  | cons x rest ih =>
    rcases x with ⟨q, ps⟩
    intro b
    simp only [List.cons_append, expectedPaperRows, List.length_cons, List.append_eq]
    rw [ih (t0 + 1) b]
    have harith : t0 + 1 + (rest.length : Int) = t0 + ((rest.length + 1 : Nat) : Int) := by
      push_cast
      ring
    rw [harith, List.append_assoc]

/-- Caching one fresh non-empty result in a memory tier below capacity appends
one entry to every table and evicts nothing. -/
theorem cache_query_results_fresh (now ttl : Int) (q : ResearchQuery)
    (ps : List ResearchPaper) (st : CacheState)
    (hne : ps ≠ [])
    (hcap : st.memory_cache.length < st.max_memory_entries)
    (hM : ∀ p ∈ st.memory_cache, p.1 ≠ generate_query_hash q)
    (hT : ∀ p ∈ st.access_times, p.1 ≠ generate_query_hash q)
    (hQ : ∀ p ∈ st.disk_queries, p.1 ≠ generate_query_hash q)
    (hP : ∀ pp ∈ ps, ∀ r ∈ st.disk_papers, r.1 ≠ generate_paper_hash pp)
    (hPnd : (ps.map generate_paper_hash).Nodup) :
    (cache_query_results now ttl q ps st).2 =
      { max_memory_entries := st.max_memory_entries
      , memory_cache := st.memory_cache ++ [(generate_query_hash q, ⟨ps, now + ttl, now⟩)]
      , access_times := st.access_times ++ [(generate_query_hash q, now)]
      , disk_papers := st.disk_papers
          ++ ps.map (fun p => (generate_paper_hash p, ⟨generate_query_hash q, p, now + ttl⟩))
      , disk_queries := st.disk_queries
          ++ [(generate_query_hash q, ⟨ps.map generate_paper_hash, now + ttl, 0, now⟩)] } := by
  have hfold : ps.foldl (fun acc paper =>
      alInsert (generate_paper_hash paper)
        (⟨generate_query_hash q, paper, now + ttl⟩ : PaperRow) acc) st.disk_papers
      = st.disk_papers
          ++ ps.map (fun p => (generate_paper_hash p,
              (⟨generate_query_hash q, p, now + ttl⟩ : PaperRow))) :=
    foldl_alInsert_append generate_paper_hash
      (fun p => (⟨generate_query_hash q, p, now + ttl⟩ : PaperRow)) ps st.disk_papers
      (fun p hp r hr => hP p hp r hr) hPnd
  simp only [cache_query_results]
  rw [if_neg (by simpa [List.isEmpty_iff] using hne)]
  simp only [cache_in_memory]
  rw [if_neg (not_le.mpr hcap)]
  simp only [CacheState.mk.injEq]
  refine ⟨trivial, ?_, ?_, ?_, ?_⟩
  · exact alInsert_of_fresh _ _ _ hM
  · exact alInsert_of_fresh _ _ _ hT
  · exact hfold
  · exact alInsert_of_fresh _ _ _ hQ

/-- Inserting a batch of fresh, pairwise-distinct, non-empty results into a
memory tier with enough headroom appends every expected entry and row and
evicts nothing. -/
theorem insertAllAt_fresh (ttl : Int) :
    ∀ (items : List InsertItem) (t0 : Int) (st : CacheState),
      (∀ x ∈ items, x.2 ≠ []) →
      (st.memory_cache.length + items.length ≤ st.max_memory_entries) →
      (∀ x ∈ items, ∀ p ∈ st.memory_cache, p.1 ≠ generate_query_hash x.1) →
      (∀ x ∈ items, ∀ p ∈ st.access_times, p.1 ≠ generate_query_hash x.1) →
      (∀ x ∈ items, ∀ p ∈ st.disk_queries, p.1 ≠ generate_query_hash x.1) →
      (∀ x ∈ items, ∀ pp ∈ x.2, ∀ r ∈ st.disk_papers, r.1 ≠ generate_paper_hash pp) →
      ((items.map (fun x => generate_query_hash x.1)).Nodup) →
      (((items.map (fun x => x.2.map generate_paper_hash)).join).Nodup) →
      insertAllAt ttl t0 items st =
        { max_memory_entries := st.max_memory_entries
        , memory_cache := st.memory_cache ++ expectedMem ttl t0 items
        , access_times := st.access_times ++ expectedTimes t0 items
        , disk_papers := st.disk_papers ++ expectedPaperRows ttl t0 items
        , disk_queries := st.disk_queries ++ expectedQueryRows ttl t0 items } := by
  intro items
  induction items with
  | nil =>
    intro t0 st _ _ _ _ _ _ _ _
    simp only [insertAllAt, expectedMem, expectedTimes, expectedPaperRows, expectedQueryRows,
      List.append_nil]
  | cons x rest ih =>
    rcases x with ⟨q, ps⟩
    intro t0 st hne hcap hM hT hQ hP hQnd hPnd
    have hps : ps ≠ [] := hne (q, ps) (by simp)
    have hQhead : generate_query_hash q ∉ rest.map (fun x => generate_query_hash x.1) :=
      (List.nodup_cons.mp (by simpa using hQnd)).1
    have hQrest : (rest.map (fun x => generate_query_hash x.1)).Nodup :=
      (List.nodup_cons.mp (by simpa using hQnd)).2
    have hjoin : ((ps.map generate_paper_hash)
        ++ ((rest.map (fun x => x.2.map generate_paper_hash)).join)).Nodup := by
      simpa using hPnd
    have hPsplit := List.nodup_append.mp hjoin
    have hstep := cache_query_results_fresh t0 ttl q ps st hps
      (by simp only [List.length_cons] at hcap; omega)
      (hM (q, ps) (by simp)) (hT (q, ps) (by simp)) (hQ (q, ps) (by simp))
      (fun pp hpp r hr => hP (q, ps) (by simp) pp hpp r hr)
      hPsplit.1
    show insertAllAt ttl (t0 + 1) rest (cache_query_results t0 ttl q ps st).2 = _
    rw [hstep]
    have hrestne : ∀ x ∈ rest, x.2 ≠ [] := fun x hx => hne x (by simp [hx])
    have hhashne : ∀ x ∈ rest, generate_query_hash x.1 ≠ generate_query_hash q := by
      intro x hx hcontra
      exact hQhead (hcontra ▸ List.mem_map_of_mem _ hx)
    have hppmem : ∀ x ∈ rest, ∀ pp ∈ x.2,
        generate_paper_hash pp ∈ (rest.map (fun x => x.2.map generate_paper_hash)).join := by
      intro x hx pp hpp
      exact List.mem_join.mpr ⟨x.2.map generate_paper_hash,
        List.mem_map_of_mem _ hx, List.mem_map_of_mem _ hpp⟩
    rw [ih (t0 + 1) _ hrestne
      (by simp only [List.length_append, List.length_cons, List.length_singleton,
            List.length_nil] at hcap ⊢
          omega)
      (by intro x hx p hp
          rcases List.mem_append.mp hp with hp | hp
          · exact hM x (by simp [hx]) p hp
          · rcases List.mem_singleton.mp hp with rfl
            exact fun hcontra => hhashne x hx hcontra.symm)
      (by intro x hx p hp
          rcases List.mem_append.mp hp with hp | hp
          · exact hT x (by simp [hx]) p hp
          · rcases List.mem_singleton.mp hp with rfl
            exact fun hcontra => hhashne x hx hcontra.symm)
      (by intro x hx p hp
          rcases List.mem_append.mp hp with hp | hp
          · exact hQ x (by simp [hx]) p hp
          · rcases List.mem_singleton.mp hp with rfl
            exact fun hcontra => hhashne x hx hcontra.symm)
      (by intro x hx pp hpp r hr
          rcases List.mem_append.mp hr with hr | hr
          · exact hP x (by simp [hx]) pp hpp r hr
          · rcases List.mem_map.mp hr with ⟨p', hp', rfl⟩
            intro hcontra
            exact (hPsplit.2.2 (hcontra ▸ List.mem_map_of_mem _ hp'))
              (hppmem x hx pp hpp))
      hQrest hPsplit.2.1]
    simp only [expectedMem, expectedTimes, expectedQueryRows, expectedPaperRows,
      List.append_assoc, List.singleton_append, List.cons_append, List.nil_append]

/-- Removing the rows keyed by the first `n` keys of a duplicate-free dict
drops its first `n` rows. -/
theorem filter_not_mem_keys_prefix {α : Type} :
    ∀ (L : List (String × α)) (n : Nat),
      (L.map Prod.fst).Nodup →
      L.filter (fun p => !(((L.map Prod.fst).take n).contains p.1)) = L.drop n := by
  intro L
  induction L with
  | nil => intro n _; simp
  | cons p t ih =>
    intro n hnd
    have hhead : p.1 ∉ t.map Prod.fst := (List.nodup_cons.mp (by simpa using hnd)).1
    have htnd : (t.map Prod.fst).Nodup := (List.nodup_cons.mp (by simpa using hnd)).2
    cases n with
    | zero =>
      simp
    | succ n =>
      simp only [List.map_cons, List.take_succ_cons, List.drop_succ_cons]
      rw [List.filter_cons]
      have hp : (((p.1 :: (t.map Prod.fst).take n).contains p.1)) = true := by
        simp [List.contains_cons]
      rw [if_neg (by simp [hp])]
      have hcongr : t.filter (fun r => !((p.1 :: (t.map Prod.fst).take n).contains r.1))
          = t.filter (fun r => !(((t.map Prod.fst).take n).contains r.1)) := by
        apply List.filter_congr
        intro r hr
        have hne : (r.1 == p.1) = false := by
          simp only [beq_eq_false_iff_ne, ne_eq]
          intro hcontra
          exact hhead (hcontra ▸ List.mem_map_of_mem Prod.fst hr)
        rw [List.contains_cons, hne, Bool.false_or]
      rw [hcongr, ih n htnd]

/-- Caching one fresh non-empty result when the memory tier is exactly at
capacity evicts the least-recently-used tenth in one pass and then appends
the new entry. -/
theorem cache_query_results_at_capacity (now ttl : Int) (q : ResearchQuery)
    (ps : List ResearchPaper) (st : CacheState)
    (hne : ps ≠ [])
    (hfull : st.memory_cache.length = st.max_memory_entries)
    (hkeys : st.memory_cache.map Prod.fst = st.access_times.map Prod.fst)
    (hnd : (st.access_times.map Prod.fst).Nodup)
    (hsorted : st.access_times.Pairwise (fun a b => decide (a.2 ≤ b.2) = true))
    (hM : ∀ p ∈ st.memory_cache, p.1 ≠ generate_query_hash q)
    (hT : ∀ p ∈ st.access_times, p.1 ≠ generate_query_hash q)
    (hQ : ∀ p ∈ st.disk_queries, p.1 ≠ generate_query_hash q)
    (hP : ∀ pp ∈ ps, ∀ r ∈ st.disk_papers, r.1 ≠ generate_paper_hash pp)
    (hPnd : (ps.map generate_paper_hash).Nodup) :
    (cache_query_results now ttl q ps st).2 =
      { max_memory_entries := st.max_memory_entries
      , memory_cache := st.memory_cache.drop (st.max_memory_entries / 10)
          ++ [(generate_query_hash q, ⟨ps, now + ttl, now⟩)]
      , access_times := st.access_times.drop (st.max_memory_entries / 10)
          ++ [(generate_query_hash q, now)]
      , disk_papers := st.disk_papers
          ++ ps.map (fun p => (generate_paper_hash p, ⟨generate_query_hash q, p, now + ttl⟩))
      , disk_queries := st.disk_queries
          ++ [(generate_query_hash q, ⟨ps.map generate_paper_hash, now + ttl, 0, now⟩)] } := by
  have hlen : st.access_times.length = st.max_memory_entries := by
    have h1 := congrArg List.length hkeys
    simp only [List.length_map] at h1
    omega
  have hfold : ps.foldl (fun acc paper =>
      alInsert (generate_paper_hash paper)
        (⟨generate_query_hash q, paper, now + ttl⟩ : PaperRow) acc) st.disk_papers
      = st.disk_papers
          ++ ps.map (fun p => (generate_paper_hash p,
              (⟨generate_query_hash q, p, now + ttl⟩ : PaperRow))) :=
    foldl_alInsert_append generate_paper_hash
      (fun p => (⟨generate_query_hash q, p, now + ttl⟩ : PaperRow)) ps st.disk_papers
      (fun p hp r hr => hP p hp r hr) hPnd
  have hMdrop : ∀ p ∈ st.memory_cache.drop (st.max_memory_entries / 10),
      p.1 ≠ generate_query_hash q :=
    fun p hp => hM p (List.drop_subset _ _ hp)
  have hTdrop : ∀ p ∈ st.access_times.drop (st.max_memory_entries / 10),
      p.1 ≠ generate_query_hash q :=
    fun p hp => hT p (List.drop_subset _ _ hp)
  simp only [cache_query_results]
  rw [if_neg (by simpa [List.isEmpty_iff] using hne)]
  simp only [cache_in_memory]
  rw [if_pos (by omega)]
  unfold evict_oldest_entries
  by_cases hpos : 10 * st.access_times.length > st.max_memory_entries
  · rw [if_pos (by simpa using hpos)]
    rw [stableSortByLe_of_pairwise st.access_times hsorted]
    have hvict : ((st.access_times.take (st.access_times.length / 10)).map Prod.fst)
        = (st.access_times.map Prod.fst).take (st.access_times.length / 10) := by
      rw [List.map_take]
    have hfiltT : st.access_times.filter
        (fun p => !(((st.access_times.take (st.access_times.length / 10)).map Prod.fst).contains p.1))
        = st.access_times.drop (st.access_times.length / 10) := by
      rw [hvict]
      exact filter_not_mem_keys_prefix st.access_times _ hnd
    have hfiltM : st.memory_cache.filter
        (fun p => !(((st.access_times.take (st.access_times.length / 10)).map Prod.fst).contains p.1))
        = st.memory_cache.drop (st.access_times.length / 10) := by
      rw [hvict, ← hkeys]
      exact filter_not_mem_keys_prefix st.memory_cache _ (hkeys ▸ hnd)
    simp only [hfiltT, hfiltM]
    simp only [CacheState.mk.injEq]
    refine ⟨trivial, ?_, ?_, ?_, ?_⟩
    · rw [hlen]
      exact alInsert_of_fresh _ _ _ (hlen ▸ hMdrop)
    · rw [hlen]
      exact alInsert_of_fresh _ _ _ (hlen ▸ hTdrop)
    · exact hfold
    · exact alInsert_of_fresh _ _ _ hQ
  · rw [if_neg (by simpa using hpos)]
    have hzero : st.max_memory_entries = 0 := by omega
    have hmemnil : st.memory_cache = [] := by
      have : st.memory_cache.length = 0 := by omega
      exact List.length_eq_zero.mp this
    have htimnil : st.access_times = [] := by
      have : st.access_times.length = 0 := by omega
      exact List.length_eq_zero.mp this
    simp only [CacheState.mk.injEq]
    refine ⟨trivial, ?_, ?_, ?_, ?_⟩
    · rw [hmemnil]
      simp [alInsert]
    · rw [htimnil]
      simp [alInsert]
    · exact hfold
    · exact alInsert_of_fresh _ _ _ hQ

/-- Splitting the expected access times across an append. -/
theorem expectedTimes_append :
    ∀ (t0 : Int) (a b : List InsertItem),
      expectedTimes t0 (a ++ b)
        = expectedTimes t0 a ++ expectedTimes (t0 + a.length) b := by
  intro t0 a
  induction a generalizing t0 with
  | nil => intro b; simp [expectedTimes]
  | cons x rest ih =>
    rcases x with ⟨q, ps⟩
    intro b
    simp only [List.cons_append, expectedTimes, List.length_cons, List.append_eq]
    rw [ih (t0 + 1) b]
    have harith : t0 + 1 + (rest.length : Int) = t0 + ((rest.length + 1 : Nat) : Int) := by
      push_cast
      ring
    rw [harith]

/-- Inserting an appended batch runs the first batch, then the second starting
at the shifted clock. -/
theorem insertAllAt_append (ttl : Int) :
    ∀ (a b : List InsertItem) (t0 : Int) (st : CacheState),
      insertAllAt ttl t0 (a ++ b) st
        = insertAllAt ttl (t0 + a.length) b (insertAllAt ttl t0 a st) := by
  intro a
  induction a with
  | nil => intro b t0 st; simp [insertAllAt]
  | cons x a ih =>
    rcases x with ⟨q, ps⟩
    intro b t0 st
    show insertAllAt ttl (t0 + 1) (a ++ b) (cache_query_results t0 ttl q ps st).2 = _
    rw [ih b (t0 + 1) _]
    simp only [List.length_cons]
    have harith : t0 + ((a.length + 1 : Nat) : Int) = t0 + 1 + (a.length : Int) := by
      push_cast
      ring
    rw [harith]
    rfl

/-- Lookup in a duplicate-free dict finds any member row. -/
theorem lookup_eq_some_of_mem_nodup {α : Type} :
    ∀ (L : List (String × α)) (k : String) (v : α),
      (L.map Prod.fst).Nodup → (k, v) ∈ L → L.lookup k = some v := by
  intro L
  induction L with
  | nil => intro k v _ hmem; exact absurd hmem (List.not_mem_nil _)
  | cons p t ih =>
    rcases p with ⟨pk, pv⟩
    intro k v hnd hmem
    have hhead : pk ∉ t.map Prod.fst := (List.nodup_cons.mp (by simpa using hnd)).1
    have htnd : (t.map Prod.fst).Nodup := (List.nodup_cons.mp (by simpa using hnd)).2
    rcases List.mem_cons.mp hmem with heq | hmem2
    · rcases Prod.mk.injEq .. ▸ heq with ⟨h1, h2⟩
      subst h1
      subst h2
      simp [List.lookup]
    · have hk : k ≠ pk := by
        intro hcontra
        apply hhead
        subst hcontra
        exact List.mem_map_of_mem Prod.fst hmem2
      have hb : (k == pk) = false := by simpa [beq_eq_false_iff_ne] using hk
      simp only [List.lookup, hb]
      exact ih k v htnd hmem2

/-- Positional read seen as a member of a prefix. -/
theorem getD_mem_take {α : Type} :
    ∀ (l : List α) (d : α) (n i : Nat), i < n → i < l.length → l.getD i d ∈ l.take n := by
  intro l
  induction l with
  | nil => intro d n i _ hlen; exact absurd hlen (by simp)
  | cons x t ih =>
    intro d n i hin hlen
    cases n with
    | zero => omega
    | succ n =>
      cases i with
      | zero => simp [List.getD_cons_zero]
      | succ i =>
        simp only [List.getD_cons_succ, List.take_succ_cons]
        exact List.mem_cons_of_mem x (ih d n i (by omega) (by simpa using hlen))

/-- Positional read as a member of the whole list. -/
theorem getD_mem {α : Type} :
    ∀ (l : List α) (d : α) (i : Nat), i < l.length → l.getD i d ∈ l := by
  intro l
  induction l with
  | nil => intro d i hlen; exact absurd hlen (by simp)
  | cons x t ih =>
    intro d i hlen
    cases i with
    | zero => simp [List.getD_cons_zero]
    | succ i =>
      simp only [List.getD_cons_succ]
      exact List.mem_cons_of_mem x (ih d i (by simpa using hlen))

/-- In a duplicate-free list an element of the first `n` positions does not
reappear past position `n`. -/
theorem getD_not_mem_drop {α : Type} (l : List α) (d : α) (n i : Nat)
    (hnd : l.Nodup) (hi : i < n) (hilen : i < l.length) :
    l.getD i d ∉ l.drop n := by
  intro hmem
  have h1 : l.getD i d ∈ l.take n := getD_mem_take l d n i hi hilen
  have hnd2 : (l.take n ++ l.drop n).Nodup := by
    rw [List.take_append_drop]
    exact hnd
  exact (List.nodup_append.mp hnd2).2.2 h1 hmem

/-- Positional read of a mapped query hash. -/
theorem getD_map_hash :
    ∀ (L : List InsertItem) (i : Nat), i < L.length →
      (L.map (fun x => generate_query_hash x.1)).getD i ""
        = generate_query_hash ((L.getD i dummyItem).1) := by
  intro L
  induction L with
  | nil => intro i hlen; exact absurd hlen (by simp)
  | cons x t ih =>
    intro i hlen
    cases i with
    | zero => simp [List.getD_cons_zero]
    | succ i =>
      simp only [List.map_cons, List.getD_cons_succ]
      exact ih i (by simpa using hlen)

/-- Keys of the expected paper rows. -/
theorem expectedPaperRows_keys (ttl : Int) :
    ∀ (t0 : Int) (items : List InsertItem),
      (expectedPaperRows ttl t0 items).map Prod.fst
        = (items.map (fun x => x.2.map generate_paper_hash)).join
  | _, [] => rfl
  | t0, (q, ps) :: rest => by
    simp [expectedPaperRows, expectedPaperRows_keys ttl (t0 + 1) rest,
      List.map_append, List.map_map, Function.comp]

/-- The query row the batch writes for its item at position `i`. -/
theorem expectedQueryRows_getD_mem (ttl : Int) :
    ∀ (t0 : Int) (L : List InsertItem) (i : Nat), i < L.length →
      (generate_query_hash ((L.getD i dummyItem).1),
        (⟨(L.getD i dummyItem).2.map generate_paper_hash,
          t0 + (i : Int) + ttl, 0, t0 + (i : Int)⟩ : QueryRow))
        ∈ expectedQueryRows ttl t0 L := by
  intro t0 L
  induction L generalizing t0 with
  | nil => intro i hlen; exact absurd hlen (by simp)
  | cons x t ih =>
    rcases x with ⟨q, ps⟩
    intro i hlen
    cases i with
    | zero =>
      simp only [List.getD_cons_zero, expectedQueryRows]
      refine List.mem_cons.mpr (Or.inl ?_)
      norm_num
    | succ n =>
      simp only [List.getD_cons_succ, expectedQueryRows]
      refine List.mem_cons.mpr (Or.inr ?_)
      have e1 : t0 + ((n + 1 : Nat) : Int) + ttl = (t0 + 1) + (n : Int) + ttl := by
        push_cast
        ring
      have e2 : t0 + ((n + 1 : Nat) : Int) = (t0 + 1) + (n : Int) := by
        push_cast
        ring
      rw [e1, e2]
      exact ih (t0 + 1) n (by simpa using hlen)

/-- The paper rows the batch writes for its item at position `i`. -/
theorem expectedPaperRows_getD_mem (ttl : Int) :
    ∀ (t0 : Int) (L : List InsertItem) (i : Nat), i < L.length →
      ∀ pp ∈ (L.getD i dummyItem).2,
      (generate_paper_hash pp,
        (⟨generate_query_hash ((L.getD i dummyItem).1), pp, t0 + (i : Int) + ttl⟩ : PaperRow))
        ∈ expectedPaperRows ttl t0 L := by
  intro t0 L
  induction L generalizing t0 with
  | nil => intro i hlen; exact absurd hlen (by simp)
  | cons x t ih =>
    rcases x with ⟨q, ps⟩
    intro i hlen pp hpp
    cases i with
    | zero =>
      simp only [List.getD_cons_zero] at hpp ⊢
      simp only [expectedPaperRows]
      refine List.mem_append.mpr (Or.inl ?_)
      have : (generate_paper_hash pp,
          (⟨generate_query_hash q, pp, t0 + ttl⟩ : PaperRow))
          ∈ ps.map (fun p => (generate_paper_hash p,
              (⟨generate_query_hash q, p, t0 + ttl⟩ : PaperRow))) :=
        List.mem_map_of_mem _ hpp
      norm_num
      simpa using this
    | succ n =>
      simp only [List.getD_cons_succ] at hpp ⊢
      simp only [expectedPaperRows]
      refine List.mem_append.mpr (Or.inr ?_)
      have e1 : t0 + ((n + 1 : Nat) : Int) + ttl = (t0 + 1) + (n : Int) + ttl := by
        push_cast
        ring
      rw [e1]
      exact ih (t0 + 1) n (by simpa using hlen) pp hpp

/-- A filterMap whose function fixes every member is the identity. -/
theorem filterMap_id_of_forall {α : Type} :
    ∀ (l : List α) (f : α → Option α), (∀ a ∈ l, f a = some a) → l.filterMap f = l := by
  intro l
  induction l with
  | nil => intro f _; simp
  | cons a t ih =>
    intro f h
    rw [List.filterMap_cons, h a (by simp)]
    rw [ih f (fun b hb => h b (by simp [hb]))]

/-- A read that misses the memory tier while the persistent tables hold the
expected rows of a batch serves item `i` from disk, as long as its TTL has not
elapsed. -/
theorem get_from_disk_of_expected (ttl t0 tR : Int) (L : List InsertItem) (i : Nat)
    (S : CacheState)
    (hml : S.memory_cache.lookup (generate_query_hash ((L.getD i dummyItem).1)) = none)
    (hdq : S.disk_queries = expectedQueryRows ttl t0 L)
    (hdp : S.disk_papers = expectedPaperRows ttl t0 L)
    (hiL : i < L.length)
    (hneI : (L.getD i dummyItem).2 ≠ [])
    (hQnd : (L.map (fun x => generate_query_hash x.1)).Nodup)
    (hPnd : ((L.map (fun x => x.2.map generate_paper_hash)).join).Nodup)
    (htR : tR < t0 + (i : Int) + ttl) :
    (get_query_results tR ((L.getD i dummyItem).1) S).1 = some ((L.getD i dummyItem).2) := by
  have hql : S.disk_queries.lookup (generate_query_hash ((L.getD i dummyItem).1))
      = some ⟨(L.getD i dummyItem).2.map generate_paper_hash,
          t0 + (i : Int) + ttl, 0, t0 + (i : Int)⟩ := by
    rw [hdq]
    exact lookup_eq_some_of_mem_nodup _ _ _
      (by rw [expectedQueryRows_keys]; exact hQnd)
      (expectedQueryRows_getD_mem ttl t0 L i hiL)
  have hlkp : ∀ pp ∈ (L.getD i dummyItem).2,
      (match S.disk_papers.lookup (generate_paper_hash pp) with
       | some paper_row => if paper_row.expires_at > tR then some paper_row.paper_data else none
       | none => none) = some pp := by
    intro pp hpp
    have hlk : S.disk_papers.lookup (generate_paper_hash pp)
        = some ⟨generate_query_hash ((L.getD i dummyItem).1), pp, t0 + (i : Int) + ttl⟩ := by
      rw [hdp]
      exact lookup_eq_some_of_mem_nodup _ _ _
        (by rw [expectedPaperRows_keys]; exact hPnd)
        (expectedPaperRows_getD_mem ttl t0 L i hiL pp hpp)
    rw [hlk]
    dsimp only
    rw [if_pos (show t0 + (i : Int) + ttl > tR from htR)]
  simp only [get_query_results]
  rw [hml]
  show (disk_lookup tR (generate_query_hash ((L.getD i dummyItem).1)) S).1 = _
  unfold disk_lookup
  rw [hql]
  dsimp only
  rw [if_pos (show t0 + (i : Int) + ttl > tR from htR)]
  have hpap : ((L.getD i dummyItem).2.map generate_paper_hash).filterMap
      (fun paper_id =>
        match S.disk_papers.lookup paper_id with
        | some paper_row => if paper_row.expires_at > tR then some paper_row.paper_data else none
        | none => none) = (L.getD i dummyItem).2 := by
    rw [List.filterMap_map]
    exact filterMap_id_of_forall _ _ (fun pp hpp => hlkp pp hpp)
  rw [hpap]
  rw [if_neg (by simpa [List.isEmpty_iff] using hneI)]

/-- A read that misses the memory tier returns nothing for item `i` once the
TTL of the item has elapsed. -/
theorem get_none_of_expired_expected (ttl t0 tR : Int) (L : List InsertItem) (i : Nat)
    (S : CacheState)
    (hml : S.memory_cache.lookup (generate_query_hash ((L.getD i dummyItem).1)) = none)
    (hdq : S.disk_queries = expectedQueryRows ttl t0 L)
    (hiL : i < L.length)
    (hQnd : (L.map (fun x => generate_query_hash x.1)).Nodup)
    (htR : t0 + (i : Int) + ttl ≤ tR) :
    (get_query_results tR ((L.getD i dummyItem).1) S).1 = none := by
  have hql : S.disk_queries.lookup (generate_query_hash ((L.getD i dummyItem).1))
      = some ⟨(L.getD i dummyItem).2.map generate_paper_hash,
          t0 + (i : Int) + ttl, 0, t0 + (i : Int)⟩ := by
    rw [hdq]
    exact lookup_eq_some_of_mem_nodup _ _ _
      (by rw [expectedQueryRows_keys]; exact hQnd)
      (expectedQueryRows_getD_mem ttl t0 L i hiL)
  simp only [get_query_results]
  rw [hml]
  show (disk_lookup tR (generate_query_hash ((L.getD i dummyItem).1)) S).1 = none
  apply disk_lookup_none_of_expired
  rw [hql]
  simp only [Option.all, decide_eq_true_eq]
  exact htR

/-- Full description of the eviction run of claim C7: the first `C` inserts
fill the memory tier, the final insert triggers one batch eviction of the
`C / 10` least-recently-used entries, and every row reaches the persistent
tables. -/
theorem evictionRun_eq (C : Nat) (ttl t0 : Int) (first : List InsertItem) (last : InsertItem)
    (hlen : first.length = C)
    (hne : ∀ x ∈ first ++ [last], x.2 ≠ [])
    (hQnd : ((first ++ [last]).map (fun x => generate_query_hash x.1)).Nodup)
    (hPnd : (((first ++ [last]).map (fun x => x.2.map generate_paper_hash)).join).Nodup) :
    evictionRun C ttl t0 (first ++ [last]) =
      { max_memory_entries := C
      , memory_cache := (expectedMem ttl t0 (first ++ [last])).drop (C / 10)
      , access_times := (expectedTimes t0 (first ++ [last])).drop (C / 10)
      , disk_papers := expectedPaperRows ttl t0 (first ++ [last])
      , disk_queries := expectedQueryRows ttl t0 (first ++ [last]) } := by
  rcases last with ⟨q, ps⟩
  have hps : ps ≠ [] := hne (q, ps) (List.mem_append_right _ (List.mem_singleton_self _))
  have hQ2 : (first.map (fun x => generate_query_hash x.1) ++ [generate_query_hash q]).Nodup := by
    simpa using hQnd
  have hQsplit := List.nodup_append.mp hQ2
  have hfreshQ : ∀ k ∈ first.map (fun x => generate_query_hash x.1),
      k ≠ generate_query_hash q := by
    intro k hk hcontra
    exact hQsplit.2.2 hk (by simp [hcontra])
  have hP2 : ((first.map (fun x => x.2.map generate_paper_hash)).join
      ++ ps.map generate_paper_hash).Nodup := by
    simpa using hPnd
  have hPsplit := List.nodup_append.mp hP2
  have hfreshP : ∀ k ∈ (first.map (fun x => x.2.map generate_paper_hash)).join,
      ∀ pp ∈ ps, k ≠ generate_paper_hash pp := by
    intro k hk pp hpp hcontra
    exact hPsplit.2.2 hk (hcontra ▸ List.mem_map_of_mem _ hpp)
  have hstF : insertAllAt ttl t0 first (emptyCache C)
      = { max_memory_entries := C
        , memory_cache := expectedMem ttl t0 first
        , access_times := expectedTimes t0 first
        , disk_papers := expectedPaperRows ttl t0 first
        , disk_queries := expectedQueryRows ttl t0 first } := by
    rw [insertAllAt_fresh ttl first t0 (emptyCache C)
      (fun x hx => hne x (List.mem_append_left _ hx))
      (by simp [emptyCache, hlen])
      (by intro x hx p hp; exact absurd hp (List.not_mem_nil p))
      (by intro x hx p hp; exact absurd hp (List.not_mem_nil p))
      (by intro x hx p hp; exact absurd hp (List.not_mem_nil p))
      (by intro x hx pp hpp r hr; exact absurd hr (List.not_mem_nil r))
      hQsplit.1 hPsplit.1]
    simp [emptyCache]
  have hstep := cache_query_results_at_capacity (t0 + (first.length : Int)) ttl q ps
      { max_memory_entries := C
      , memory_cache := expectedMem ttl t0 first
      , access_times := expectedTimes t0 first
      , disk_papers := expectedPaperRows ttl t0 first
      , disk_queries := expectedQueryRows ttl t0 first }
      hps
      (by show (expectedMem ttl t0 first).length = C
          rw [expectedMem_length, hlen])
      (by show (expectedMem ttl t0 first).map Prod.fst = (expectedTimes t0 first).map Prod.fst
          rw [expectedMem_keys, expectedTimes_keys])
      (by show ((expectedTimes t0 first).map Prod.fst).Nodup
          rw [expectedTimes_keys]
          exact hQsplit.1)
      (expectedTimes_sorted t0 first)
      (by intro p hp
          have hk : p.1 ∈ (expectedMem ttl t0 first).map Prod.fst :=
            List.mem_map_of_mem _ hp
          rw [expectedMem_keys] at hk
          exact hfreshQ _ hk)
      (by intro p hp
          have hk : p.1 ∈ (expectedTimes t0 first).map Prod.fst :=
            List.mem_map_of_mem _ hp
          rw [expectedTimes_keys] at hk
          exact hfreshQ _ hk)
      (by intro p hp
          have hk : p.1 ∈ (expectedQueryRows ttl t0 first).map Prod.fst :=
            List.mem_map_of_mem _ hp
          rw [expectedQueryRows_keys] at hk
          exact hfreshQ _ hk)
      (by intro pp hpp r hr
          have hk : r.1 ∈ (expectedPaperRows ttl t0 first).map Prod.fst :=
            List.mem_map_of_mem _ hr
          rw [expectedPaperRows_keys] at hk
          exact hfreshP _ hk pp hpp)
      hPsplit.2.1
  unfold evictionRun
  rw [insertAllAt_append, hstF]
  rw [show ∀ (t : Int) (st : CacheState),
        insertAllAt ttl t [(q, ps)] st = (cache_query_results t ttl q ps st).2
      from fun t st => rfl]
  rw [hstep]
  rw [expectedMem_append, expectedTimes_append, expectedQueryRows_append,
    expectedPaperRows_append]
  rw [List.drop_append_of_le_length (by rw [expectedMem_length]; omega),
    List.drop_append_of_le_length (by rw [expectedTimes_length]; omega)]
  simp only [expectedMem, expectedTimes, expectedQueryRows, expectedPaperRows,
    List.append_nil]

/-- C7. Inserting `C + 1` distinct non-empty query results into a fresh cache
of memory capacity `C` triggers one batch eviction: the resulting state keeps
exactly the entries past position `C / 10` resident in memory (the `C / 10`
least-recently-accessed entries are evicted in one pass) while every row
reaches the persistent tables, and each evicted entry is still served by a
read — from the persistent tier — at any time before its own TTL elapses, and
no longer afterwards. -/
theorem C7_batch_eviction (C : Nat) (ttl t0 : Int)
    (first : List InsertItem) (last : InsertItem)
    (hlen : first.length = C)
    (hne : ∀ x ∈ first ++ [last], x.2 ≠ [])
    (hQnd : ((first ++ [last]).map (fun x => generate_query_hash x.1)).Nodup)
    (hPnd : (((first ++ [last]).map (fun x => x.2.map generate_paper_hash)).join).Nodup) :
    evictionRun C ttl t0 (first ++ [last]) =
      { max_memory_entries := C
      , memory_cache := (expectedMem ttl t0 (first ++ [last])).drop (C / 10)
      , access_times := (expectedTimes t0 (first ++ [last])).drop (C / 10)
      , disk_papers := expectedPaperRows ttl t0 (first ++ [last])
      , disk_queries := expectedQueryRows ttl t0 (first ++ [last]) }
    ∧ ∀ i : Nat, i < C / 10 →
        (evictionRun C ttl t0 (first ++ [last])).memory_cache.lookup
            (generate_query_hash (((first ++ [last]).getD i dummyItem).1)) = none
        ∧ (∀ tR : Int, tR < t0 + (i : Int) + ttl →
            (get_query_results tR (((first ++ [last]).getD i dummyItem).1)
                (evictionRun C ttl t0 (first ++ [last]))).1
              = some (((first ++ [last]).getD i dummyItem).2))
        ∧ (∀ tR : Int, t0 + (i : Int) + ttl ≤ tR →
            (get_query_results tR (((first ++ [last]).getD i dummyItem).1)
                (evictionRun C ttl t0 (first ++ [last]))).1 = none) := by
  have hrun := evictionRun_eq C ttl t0 first last hlen hne hQnd hPnd
  refine ⟨hrun, ?_⟩
  intro i hi
  have hiC : i < C := lt_of_lt_of_le hi (Nat.div_le_self C 10)
  have hiL : i < (first ++ [last]).length := by
    simp only [List.length_append, List.length_singleton]
    omega
  have hml : (evictionRun C ttl t0 (first ++ [last])).memory_cache.lookup
      (generate_query_hash (((first ++ [last]).getD i dummyItem).1)) = none := by
    rw [hrun]
    apply lookup_eq_none_of_forall_ne
    intro p hp hcontra
    have hkey : p.1 ∈ ((expectedMem ttl t0 (first ++ [last])).drop (C / 10)).map Prod.fst :=
      List.mem_map_of_mem _ hp
    rw [List.map_drop, expectedMem_keys] at hkey
    rw [hcontra, ← getD_map_hash (first ++ [last]) i hiL] at hkey
    exact getD_not_mem_drop ((first ++ [last]).map (fun x => generate_query_hash x.1))
      "" (C / 10) i hQnd hi (by rw [List.length_map]; exact hiL) hkey
  refine ⟨hml, ?_, ?_⟩
  · intro tR htR
    refine get_from_disk_of_expected ttl t0 tR (first ++ [last]) i
      (evictionRun C ttl t0 (first ++ [last])) hml ?_ ?_ hiL ?_ hQnd hPnd htR
    · rw [hrun]
    · rw [hrun]
    · exact hne ((first ++ [last]).getD i dummyItem)
        (getD_mem (first ++ [last]) dummyItem i hiL)
  · intro tR htR
    exact get_none_of_expired_expected ttl t0 tR (first ++ [last]) i
      (evictionRun C ttl t0 (first ++ [last])) hml (by rw [hrun]) hiL hQnd htR

/-- One distinct witness item per query string: the query and one paper whose
title is that string. -/
def wItem (s : String) : InsertItem :=
  (⟨s, "general", [], 2015, 15⟩, [{ basePaper with title := s }])

/-- Ten distinct items filling a capacity-10 memory tier. -/
def wFirst : List InsertItem :=
  [ wItem "q0", wItem "q1", wItem "q2", wItem "q3", wItem "q4"
  , wItem "q5", wItem "q6", wItem "q7", wItem "q8", wItem "q9" ]

/-- The eleventh item whose insert triggers the batch eviction. -/
def wLast : InsertItem := wItem "qX"

/-- C7, witness: with capacity 10, TTL 24 and inserts at times 0..10, the
oldest entry is evicted from memory, is still served from disk at time 23, and
is gone at its expiry time 24. -/
theorem C7_batch_eviction_witness :
    (evictionRun 10 24 0 (wFirst ++ [wLast])).memory_cache.lookup
        (generate_query_hash (((wFirst ++ [wLast]).getD 0 dummyItem).1)) = none
    ∧ (get_query_results 23 (((wFirst ++ [wLast]).getD 0 dummyItem).1)
        (evictionRun 10 24 0 (wFirst ++ [wLast]))).1
      = some (((wFirst ++ [wLast]).getD 0 dummyItem).2)
    ∧ (get_query_results 24 (((wFirst ++ [wLast]).getD 0 dummyItem).1)
        (evictionRun 10 24 0 (wFirst ++ [wLast]))).1 = none := by
  have h := C7_batch_eviction 10 24 0 wFirst wLast
    (by decide) (by decide) (by decide) (by decide)
  have h0 := h.2 0 (by decide)
  exact ⟨h0.1, h0.2.1 23 (by decide), h0.2.2 24 (by decide)⟩

end ResearchCache

end Sage
